import Mathlib

set_option maxHeartbeats 1000000

/-
Verification development for the expense-flow multi-agent budget pipeline.

The Python source is shallowly embedded: Python floats are modelled as
rationals, Python dicts (which preserve insertion order) as association
lists, fallible code as Except values over an explicit error type, and
the external collaborators (the generation backend, the web search tool,
the thread pool running the sandbox) as explicit oracle parameters.
-/

/- ===================== generic string helpers ===================== -/

/-- listBeginsWith pat s decides whether pat is an initial segment of s. -/
def listBeginsWith : List Char → List Char → Bool
  | [], _ => true
  | _ :: _, [] => false
  | p :: ps, c :: cs => p == c && listBeginsWith ps cs

/-- hasInfixChars pat s decides whether pat occurs contiguously inside s;
this is the semantics of the Python substring test (pat in s). -/
def hasInfixChars (pat : List Char) : List Char → Bool
  | [] => pat.isEmpty
  | c :: t => listBeginsWith pat (c :: t) || hasInfixChars pat t

/-- Python str.lower restricted to the ASCII range, where it agrees with the
full Unicode lowercase mapping of CPython (on characters at or above 128 the
two differ, so every theorem below that quantifies over inputs fed to this
map carries an explicit ASCII bound on those inputs). -/
def pyLower (s : String) : String := String.mk (s.data.map Char.toLower)

/-- Python str.upper restricted to the ASCII range, where it agrees with the
full Unicode uppercase mapping of CPython; theorems quantifying over inputs
fed to this map carry an explicit ASCII bound on those inputs. -/
def pyUpper (s : String) : String := String.mk (s.data.map Char.toUpper)

/-- The CPython whitespace class (the characters satisfying the internal
whitespace predicate of the unicode object): tab through carriage return,
the four separator controls 0x1C-0x1F, space, next line 0x85, no-break
space 0xA0, Ogham space mark, the 0x2000-0x200A spaces, line and paragraph
separators, narrow no-break space, medium mathematical space, and
ideographic space. This single set is both what str.strip() removes and
what the whitespace class of the re module matches on str patterns. -/
def pyIsSpace (c : Char) : Bool :=
  if (9 ≤ c.toNat ∧ c.toNat ≤ 13) ∨ (28 ≤ c.toNat ∧ c.toNat ≤ 32) ∨ c.toNat = 133
      ∨ c.toNat = 160 ∨ c.toNat = 5760 ∨ (8192 ≤ c.toNat ∧ c.toNat ≤ 8202)
      ∨ c.toNat = 8232 ∨ c.toNat = 8233 ∨ c.toNat = 8239 ∨ c.toNat = 8287
      ∨ c.toNat = 12288
  then true else false

/-- Does every character of the string lie below 128. On such strings the
ASCII case maps above coincide with CPython str.lower and str.upper, and
the ASCII digit class coincides with the digit class of the re module, so
the theorems using those maps restrict their quantified strings with this
bound. -/
def isAsciiStr (s : String) : Bool := s.data.all (fun c => c.toNat < 128)

/-- Whitespace removal from both ends of a character list, the semantics of
Python str.strip(). -/
def trimChars (cs : List Char) : List Char :=
  ((cs.dropWhile pyIsSpace).reverse.dropWhile pyIsSpace).reverse

/-- Python str.strip(). -/
def pyStrip (s : String) : String := String.mk (trimChars s.data)

/-- Numeric value of a run of decimal digit characters. -/
def digitsToNat (ds : List Char) : ℕ := ds.foldl (fun a c => 10 * a + (c.toNat - 48)) 0

/-- Value of the decimal literal built from an integer digit run and an
optional fractional digit run; this is the value Python float() assigns to
the matched amount substring after the comma is replaced by a dot. -/
def amountOfDigits (intDs : List Char) (fr : Option (List Char)) : ℚ :=
  (digitsToNat intDs : ℚ) +
    (match fr with
     | some fds => (digitsToNat fds : ℚ) / 10 ^ fds.length
     | none => 0)

/-- The characters of the optional decimal separator and fractional digit
run of a well-formed amount. -/
def sepChars : Option (Char × List Char) → List Char
  | some p => p.1 :: p.2
  | none => []

/-- Python round() on a rational: round half to even. -/
def roundHalfEven (q : ℚ) : ℤ :=
  let f := ⌊q⌋
  let r := q - f
  if r < 1 / 2 then f
  else if 1 / 2 < r then f + 1
  else if f % 2 = 0 then f else f + 1

/-- Python round(x, 2). -/
def pyRound2 (q : ℚ) : ℚ := (roundHalfEven (q * 100) : ℚ) / 100

/-- Python format specifier .0f (used only inside impact and trend strings). -/
def fmtF0 (q : ℚ) : String := toString (roundHalfEven q)

/-- Python format specifier .1f (used only inside impact and trend strings). -/
def fmtF1 (q : ℚ) : String :=
  let n := roundHalfEven (q * 10)
  let a := n.natAbs
  (if n < 0 then "-" else "") ++ toString (a / 10) ++ "." ++ toString (a % 10)

/- ===================== Python dict as ordered association list ===================== -/

/-- Lookup in an insertion-ordered association list (Python dict read). -/
def dictGet? (d : List (String × ℚ)) (k : String) : Option ℚ :=
  (d.find? (fun p => p.1 == k)).map Prod.snd

/-- Python dict .get(k, default). -/
def dictGetD (d : List (String × ℚ)) (k : String) (dflt : ℚ) : ℚ :=
  (dictGet? d k).getD dflt

/-- Python dict assignment d[k] = v: updates the existing binding in place,
otherwise appends (insertion order preserved). -/
def dictSet : List (String × ℚ) → String → ℚ → List (String × ℚ)
  | [], k, v => [(k, v)]
  | p :: t, k, v => if p.1 == k then (k, v) :: t else p :: dictSet t k v

/- ===================== domain enums (backend/domain/enums.py) ===================== -/

inductive ExpenseCategory
  | FOOD | TRANSPORT | UTILITIES | ENTERTAINMENT | HEALTH
  | EDUCATION | SHOPPING | HOUSING | PERSONAL | OTHER
deriving DecidableEq, Repr

/-- The .value of the str-enum member. -/
def ExpenseCategory.value : ExpenseCategory → String
  | .FOOD => "FOOD"
  | .TRANSPORT => "TRANSPORT"
  | .UTILITIES => "UTILITIES"
  | .ENTERTAINMENT => "ENTERTAINMENT"
  | .HEALTH => "HEALTH"
  | .EDUCATION => "EDUCATION"
  | .SHOPPING => "SHOPPING"
  | .HOUSING => "HOUSING"
  | .PERSONAL => "PERSONAL"
  | .OTHER => "OTHER"

/-- All members in declaration order. -/
def allCategories : List ExpenseCategory :=
  [.FOOD, .TRANSPORT, .UTILITIES, .ENTERTAINMENT, .HEALTH,
   .EDUCATION, .SHOPPING, .HOUSING, .PERSONAL, .OTHER]

/-- The enum constructor ExpenseCategory(s): the member whose value equals s. -/
def categoryFromValue? (s : String) : Option ExpenseCategory :=
  allCategories.find? (fun c => c.value == s)

/-- The keywords_map dict of ExpenseCategory.from_keywords, in declaration
order. The non-ASCII keyword bytes are copied from the source file verbatim
(the source file stores them double-encoded). -/
def keywordsMap : List (ExpenseCategory × List String) :=
  [(.FOOD, ["market", "yemek", "ekmek", "gÄ±da", "restaurant", "kafe", "kahve",
            "starbucks", "migros", "carrefour", "a101", "pizza", "dominos"]),
   (.TRANSPORT, ["benzin", "yakÄ±t", "otobÃ¼s", "metro", "taksi", "uber", "araÃ§",
                 "uÃ§ak", "bilet", "pegasus", "thy", "transfer"]),
   (.UTILITIES, ["elektrik", "su", "gaz", "internet", "telefon", "fatura", "doÄŸalgaz"]),
   (.ENTERTAINMENT, ["sinema", "film", "konser", "tiyatro", "oyun", "netflix",
                     "spotify", "abonel", "disney"]),
   (.HEALTH, ["doktor", "hastane", "eczane", "ilaÃ§", "saÄŸlÄ±k"]),
   (.EDUCATION, ["kitap", "kurs", "eÄŸitim", "okul", "ders", "udemy", "coursera"]),
   (.SHOPPING, ["giyim", "kÄ±yafet", "ayakkabÄ±", "alÄ±ÅŸveriÅŸ", "laptop",
                "bilgisayar", "telefon", "mouse", "klavye", "monitÃ¶r", "kamera",
                "kulaklÄ±k", "macbook", "iphone", "samsung", "apple", "logitech",
                "asus", "msi", "lenovo", "dell", "hp", "razer", "keychron", "anker",
                "teknosa", "vatan", "mediamarkt", "hepsiburada", "trendyol", "amazon",
                "n11", "gittigidiyor", "usb", "disk", "hard", "ssd", "ram", "ekran",
                "tablet", "ipad", "airpods", "Ã§anta", "kÄ±lÄ±f", "aksesuar", "hub",
                "adapter", "kablo", "ÅŸarj", "powerbank", "trackpad", "webcam",
                "mikrofon"]),
   (.HOUSING, ["kira", "rent", "ev", "mobilya", "otel", "konaklama", "hilton",
               "hertz", "kiralama"]),
   (.PERSONAL, ["kuafÃ¶r", "berber", "gÃ¼zellik", "spa", "masaj"])]

/-- Does some keyword of the pair occur inside the lowercased text. -/
def keywordHit (textLower : String) (p : ExpenseCategory × List String) : Bool :=
  p.2.any (fun kw => hasInfixChars kw.data textLower.data)

/-- ExpenseCategory.from_keywords: first category in declaration order with a
keyword occurring as a substring of the lowercased text, OTHER otherwise. -/
def ExpenseCategory.from_keywords (text : String) : ExpenseCategory :=
  let textLower := pyLower text
  match keywordsMap.find? (keywordHit textLower) with
  | some p => p.1
  | none => .OTHER

inductive BudgetStatus
  | HEALTHY | WARNING | OVER_BUDGET | UNKNOWN
deriving DecidableEq, Repr

/-- The .value of the str-enum member. -/
def BudgetStatus.value : BudgetStatus → String
  | .HEALTHY => "HEALTHY"
  | .WARNING => "WARNING"
  | .OVER_BUDGET => "OVER_BUDGET"
  | .UNKNOWN => "UNKNOWN"

/-- BudgetStatus.from_percentage. -/
def BudgetStatus.from_percentage (percentage : ℚ) : BudgetStatus :=
  if percentage < 0 then .UNKNOWN
  else if percentage < 80 then .HEALTHY
  else if percentage ≤ 100 then .WARNING
  else .OVER_BUDGET

inductive ActionPriority
  | LOW | MEDIUM | HIGH | URGENT
deriving DecidableEq, Repr

/- ===================== domain models (backend/domain/models.py) ===================== -/

/-- One web search result (title, link, snippet). -/
structure SearchResult where
  title : String
  link : String
  snippet : String
deriving DecidableEq, Repr

/-- The expense metadata dict. The pipeline only ever writes the two keys
search_results and searched (SearcherAgent), so the dict is modelled as a
record of the two optional bindings. -/
structure ExpenseMetadata where
  search_results : Option (List SearchResult) := none
  searched : Option Bool := none
deriving DecidableEq, Repr

/-- Expense entity. The uuid and creation timestamp are identity bookkeeping
not referenced by any pipeline logic and are omitted from the embedding. -/
structure Expense where
  description : String
  amount : ℚ
  category : ExpenseCategory
  metadata : ExpenseMetadata := {}
deriving DecidableEq, Repr

/-- Python runtime errors raised by the embedded code paths. -/
inductive PyError
  | valueError (msg : String)
  | zeroDivisionError
  | typeError
  | keyError
  | jsonDecodeError
deriving DecidableEq, Repr

/-- Decidable equality for Except results, used to evaluate the embedding
on concrete inputs. -/
instance {eps alpha : Type} [DecidableEq eps] [DecidableEq alpha] :
    DecidableEq (Except eps alpha) := fun x y =>
  match x, y with
  | .ok a, .ok b =>
    if h : a = b then isTrue (by rw [h]) else isFalse (by intro hc; cases hc; exact h rfl)
  | .error a, .error b =>
    if h : a = b then isTrue (by rw [h]) else isFalse (by intro hc; cases hc; exact h rfl)
  | .ok _, .error _ => isFalse (by intro hc; cases hc)
  | .error _, .ok _ => isFalse (by intro hc; cases hc)

/-- Analysis entity (uuid and timestamp again omitted). A trend is stored as
the (category, amount, percentage) triple; the source renders each triple
into a display string with an emoji, which is presentation only. -/
structure Analysis where
  total_expenses : ℚ
  daily_rate : ℚ
  monthly_projection : ℚ
  days_analyzed : ℕ
  category_breakdown : List (String × ℚ)
  budget_status : BudgetStatus
  income : Option ℚ := none
  remaining_budget : Option ℚ := none
  usage_percentage : Option ℚ := none
  trends : List (String × ℚ × ℚ) := []
deriving DecidableEq, Repr

structure ActionItem where
  description : String
  priority : ActionPriority
  impact : Option String := none
  potential_savings : Option ℚ := none
deriving DecidableEq, Repr

structure Goal where
  description : String
  current_value : ℚ
  target_value : ℚ
  timeframe : String
  category : Option String := none
deriving DecidableEq, Repr

/-- Recommendation entity (uuid, timestamp and the analysis back-reference id
omitted: ids are abstracted away). -/
structure Recommendation where
  summary : String
  recommendations : List String
  action_items : List ActionItem
  goals : List Goal
deriving DecidableEq, Repr

/- ===================== CodeExecutor and the generated aggregation code
     (backend/tools/code_executor.py, backend/agents/analyst.py) ===================== -/

/-- The aggregation loop of the code string generated by
AnalystAgent._calculate_breakdown_with_code:
for category, amount in expenses: add into category_totals. -/
def sandboxAggLoop (expenseData : List (String × ℚ)) : List (String × ℚ) :=
  expenseData.foldl
    (fun ct p =>
      match dictGet? ct p.1 with
      | some old => dictSet ct p.1 (old + p.2)
      | none => dictSet ct p.1 p.2)
    []

/-- The percentage loop of the generated code: for cat, amt in
category_totals.items(): percentage = amt / total * 100; result[cat] =
round(amt, 2). Dividing by a zero total raises ZeroDivisionError. The dict
it builds is returned for fidelity but discarded by the caller, because the
generated code immediately rebinds result to category_totals. -/
def percentLoopAux (total : ℚ) (res : List (String × ℚ)) :
    List (String × ℚ) → Except PyError (List (String × ℚ))
  | [] => .ok res
  | p :: t =>
    if total = 0 then .error .zeroDivisionError
    else percentLoopAux total (dictSet res p.1 (pyRound2 p.2)) t

def sandboxPercentLoop (ct : List (String × ℚ)) (total : ℚ) :
    Except PyError (List (String × ℚ)) :=
  percentLoopAux total [] ct

/-- Semantics of the whole generated code string: aggregate, run the
percentage loop (which may raise), and leave category_totals bound to the
global result that CodeExecutor reads back. -/
def generatedBreakdownCode (expenseData : List (String × ℚ)) (total : ℚ) :
    Except PyError (List (String × ℚ)) :=
  let ct := sandboxAggLoop expenseData
  match sandboxPercentLoop ct total with
  | .ok _ => .ok ct
  | .error e => .error e

/-- CodeExecutor.execute on the generated aggregation code. The dict result
with its success flag is modelled as an Except value: ok is success = True
with the output, error is success = False with the error string. The
sandboxOk flag models the external failure sources (wall-clock timeout of
asyncio.wait_for, thread or compilation failure); an exception raised inside
the executed code is the internal failure source. -/
def codeExecutorExecute (sandboxOk : Bool) (expenseData : List (String × ℚ))
    (total : ℚ) : Except String (List (String × ℚ)) :=
  if sandboxOk then
    match generatedBreakdownCode expenseData total with
    | .ok out => .ok out
    | .error _ => .error "execution error"
  else .error "Timeout"

/-- The plain in-process aggregation loop, written twice in
AnalystAgent (the enable_code_executor = False branch of execute and the
fallback branch of _calculate_breakdown_with_code, textually identical). -/
def fallbackCategoryTotals (expenses : List Expense) : List (String × ℚ) :=
  expenses.foldl
    (fun ct e => dictSet ct e.category.value (dictGetD ct e.category.value 0 + e.amount))
    []

/-- AnalystAgent._calculate_breakdown_with_code: build the (category value,
amount) pairs, run them through the sandbox, and on any failure fall back to
the plain loop. -/
def calculateBreakdownWithCode (sandboxOk : Bool) (expenses : List Expense)
    (total : ℚ) : List (String × ℚ) :=
  let expenseData := expenses.map (fun e => (e.category.value, e.amount))
  match codeExecutorExecute sandboxOk expenseData total with
  | .ok out => out
  | .error _ => fallbackCategoryTotals expenses

/- ===================== AnalystAgent.execute (backend/agents/analyst.py) ===================== -/

/-- The income branch of AnalystAgent.execute. Python if income: treats both
None and 0 as falsy, so a zero income takes the UNKNOWN branch. Returns
(usage_percentage, status, remaining_budget). -/
def analystBudgetFields (monthly_projection : ℚ) :
    Option ℚ → Option ℚ × BudgetStatus × Option ℚ
  | some i =>
    if i = 0 then (none, .UNKNOWN, none)
    else
      let usage := monthly_projection / i * 100
      (some usage, BudgetStatus.from_percentage usage,
       some (if i > monthly_projection then i - monthly_projection else 0))
  | none => (none, .UNKNOWN, none)

/-- The trend loop of AnalystAgent.execute: for each breakdown entry compute
its share of total (raising ZeroDivisionError when total is zero) and keep
the entries at or above 30 percent whose key is a valid category value (the
try around the ExpenseCategory constructor skips invalid keys). -/
def trendsLoopAux (total : ℚ) (acc : List (String × ℚ × ℚ)) :
    List (String × ℚ) → Except PyError (List (String × ℚ × ℚ))
  | [] => .ok acc
  | p :: t =>
    if total = 0 then .error .zeroDivisionError
    else
      let pct := p.2 / total * 100
      trendsLoopAux total
        (if 30 ≤ pct ∧ (categoryFromValue? p.1).isSome
         then acc ++ [(p.1, p.2, pct)] else acc) t

def trendsCalc (breakdown : List (String × ℚ)) (total : ℚ) :
    Except PyError (List (String × ℚ × ℚ)) :=
  trendsLoopAux total [] breakdown

/-- AnalystAgent.execute. Raises ValueError on an empty expense list; divides
the total by days_analyzed (ZeroDivisionError when zero); computes the
category breakdown through the sandbox when enableCodeExecutor is set and
with the plain loop otherwise; fills the budget fields from the optional
income; and runs the trend loop. -/
def analystExecute (enableCodeExecutor sandboxOk : Bool) (expenses : List Expense)
    (days_analyzed : ℕ) (income : Option ℚ) : Except PyError Analysis :=
  if expenses = [] then .error (.valueError "Cannot analyze empty expenses")
  else if days_analyzed = 0 then .error .zeroDivisionError
  else
    let total := (expenses.map Expense.amount).sum
    let daily_rate := total / (days_analyzed : ℚ)
    let monthly_projection := daily_rate * 30
    let category_breakdown :=
      if enableCodeExecutor then calculateBreakdownWithCode sandboxOk expenses total
      else fallbackCategoryTotals expenses
    let bf := analystBudgetFields monthly_projection income
    match trendsCalc category_breakdown total with
    | .error e => .error e
    | .ok trends =>
    .ok { total_expenses := total,
          daily_rate := daily_rate,
          monthly_projection := monthly_projection,
          days_analyzed := days_analyzed,
          category_breakdown := category_breakdown,
          budget_status := bf.2.1,
          income := income,
          remaining_budget := bf.2.2,
          usage_percentage := bf.1,
          trends := trends }

/- ===================== ClassifierAgent (backend/agents/classifier.py) ===================== -/

/-- Is the character one of the two decimal separators of the amount regex. -/
def isSepChar (c : Char) : Bool := c == '.' || c == ','

/-- Strips the currency tag (TL or the lira sign or tl, case-insensitive
because of re.IGNORECASE) from the front of the reversed character list. -/
def stripTagRev : List Char → Option (List Char)
  | '₺' :: rest => some rest
  | c1 :: c2 :: rest =>
    if (c1 == 'L' || c1 == 'l') && (c2 == 'T' || c2 == 't') then some rest else none
  | _ => none

/-- After number and tag are consumed from the right, the regex requires at
least one whitespace character and then a nonempty group(1) each of whose
characters is matched by the dot, which without the DOTALL flag matches any
character except the newline; the source then applies .strip() to
group(1). -/
def descFromRev (rest : List Char) : Option String :=
  match rest with
  | c :: _ =>
    if pyIsSpace c then
      let pre := (rest.dropWhile pyIsSpace).reverse
      if pre = [] ∨ pre.any (fun x => x == '\n') then none
      else some (pyStrip (String.mk pre))
    else none
  | [] => none

/-- After the first digit run d1 is read, scans the optional separator with
its second digit run and then the description, from the remaining reversed
characters. -/
def scanAmountRest (d1 : List Char) : List Char → Option (String × ℚ)
  | c :: r5 =>
    if isSepChar c then
      let d2 := r5.takeWhile Char.isDigit
      let r6 := r5.dropWhile Char.isDigit
      if d2 = [] then none
      else (descFromRev r6).map (fun d => (d, amountOfDigits d2.reverse (some d1.reverse)))
    else (descFromRev (c :: r5)).map (fun d => (d, amountOfDigits d1.reverse none))
  | [] => none

/-- Scans the amount (one digit run with an optional separator and second
digit run, read from the right) and then the description, from the reversed
tail left after the tag. -/
def numberAndDesc (r2 : List Char) : Option (String × ℚ) :=
  let r3 := r2.dropWhile pyIsSpace
  let d1 := r3.takeWhile Char.isDigit
  let r4 := r3.dropWhile Char.isDigit
  if d1 = [] then none else scanAmountRest d1 r4

/-- The regex path of ClassifierAgent._parse: re.match of the anchored
pattern (lazy leading dot group, whitespace, digits with one optional
separator, optional whitespace, currency tag, optional trailing whitespace)
against the stripped text, case-insensitive. Because the pattern is
end-anchored and the leading group is lazy, the match is equivalent to this
deterministic right-to-left scan: the amount is the last maximal digit run
(with one optional separator run) that sits directly before the tag,
group(1) is everything before the maximal whitespace run preceding the
amount, and the match fails when that group would contain a newline, which
the dot cannot match without the DOTALL flag. The digit class is modelled
as the ASCII digits, where it agrees with the re module class; theorems
that quantify over arbitrary texts through this scan therefore bound those
texts to ASCII. -/
def regexParse (text : String) : Option (String × ℚ) :=
  let rcs := (trimChars text.data).reverse
  (stripTagRev rcs).bind numberAndDesc

/-- JSON values, for the json.loads result of the backend response. -/
inductive JsonVal
  | jnull
  | jbool (b : Bool)
  | jnum (q : ℚ)
  | jstr (s : String)
  | jarr (elems : List JsonVal)
  | jobj (fields : List (String × JsonVal))

/-- Python dict lookup on parsed JSON object fields (on duplicate keys the
later binding wins, as in json.loads). -/
def jsonLookup (fields : List (String × JsonVal)) (k : String) : Option JsonVal :=
  (fields.reverse.find? (fun p => p.1 == k)).map Prod.snd

/-- Python float(x) on a JSON value: numbers pass through, booleans coerce
to 0 or 1, strings are handed to the float builtin of the runtime, and
None, lists and dicts raise TypeError. The builtin applied to a string is
external to the repository and is passed in as the oracle floatStr: none
models the ValueError raise, and a successful conversion (including the
non-finite inf and nan spellings the builtin accepts) is represented by a
rational under the float-as-rational convention of this file. -/
def pyFloat (floatStr : String → Option ℚ) : JsonVal → Except PyError ℚ
  | .jnum q => .ok q
  | .jbool b => .ok (if b then 1 else 0)
  | .jstr s =>
    match floatStr s with
    | some q => .ok q
    | none => .error (.valueError "could not convert string to float")
  | _ => .error .typeError

/-- The try block of the LLM fallback in ClassifierAgent._parse:
json.loads (jsonDecodeError when the response is not JSON), then the two
subscript reads (TypeError when the parsed value is not a dict, KeyError
when a key is missing), then float on the amount. -/
def llmParseTryBlock (floatStr : String → Option ℚ) (resp : Option JsonVal) :
    Except PyError (JsonVal × ℚ) :=
  match resp with
  | none => .error .jsonDecodeError
  | some (.jobj fields) =>
    match jsonLookup fields "description" with
    | none => .error .keyError
    | some d =>
      match jsonLookup fields "amount" with
      | none => .error .keyError
      | some aVal =>
        match pyFloat floatStr aVal with
        | .ok q => .ok (d, q)
        | .error e => .error e
  | some _ => .error .typeError

/-- The except clause of the fallback catches exactly JSONDecodeError,
KeyError and ValueError. -/
def caughtByParse : PyError → Bool
  | .jsonDecodeError => true
  | .keyError => true
  | .valueError _ => true
  | _ => false

/-- ClassifierAgent._parse: the regex path first; on no match, the LLM
fallback (the backend response is the oracle argument, given as the
json.loads result, none when the response is not valid JSON; the float
builtin on strings is the floatStr oracle); the three listed exception
types degrade to (text, 0.0) and any other exception propagates. -/
def classifierParse (floatStr : String → Option ℚ) (text : String)
    (llmResp : Option JsonVal) : Except PyError (JsonVal × ℚ) :=
  match regexParse text with
  | some (d, a) => .ok (.jstr d, a)
  | none =>
    match llmParseTryBlock floatStr llmResp with
    | .ok r => .ok r
    | .error e => if caughtByParse e then .ok (.jstr text, 0) else .error e

/-- ClassifierAgent._categorize: keyword classification first; only when it
yields OTHER is the backend consulted, and its response is uppercased,
stripped and fed to the enum constructor, any failure giving OTHER. -/
def classifierCategorize (description : String) (llmResp : String) : ExpenseCategory :=
  let category := ExpenseCategory.from_keywords description
  if category ≠ ExpenseCategory.OTHER then category
  else
    let category_str := pyStrip (pyUpper llmResp)
    match categoryFromValue? category_str with
    | some c => c
    | none => ExpenseCategory.OTHER

/- ===================== SearcherAgent (backend/agents/searcher.py) ===================== -/

/-- The selection rule of SearcherAgent.execute. -/
def searchableCheck (threshold : ℚ) (e : Expense) : Bool :=
  threshold ≤ e.amount || e.amount == 0

/-- SearchTool.search_product_price: appends the localized price word to the
query and delegates to the raw search oracle (an error models a raising
duck-typed search tool, which the searcher catches per item). -/
def searchProductPrice (rawSearch : String → Except Unit (List SearchResult))
    (product : String) : Except Unit (List SearchResult) :=
  rawSearch (product ++ " fiyat")

/-- The body of the per-expense loop of SearcherAgent.execute: search, and
only when the result list is truthy (nonempty) write the first three results
and the searched flag into the metadata; a raising search leaves the expense
untouched. -/
def enrichOne (rawSearch : String → Except Unit (List SearchResult))
    (e : Expense) : Expense :=
  match searchProductPrice rawSearch e.description with
  | .ok results =>
    if results ≠ [] then
      { e with metadata := { search_results := some (results.take 3), searched := some true } }
    else e
  | .error _ => e

/-- SearcherAgent.execute: filter the searchable expenses; when none, return
the input list unchanged; otherwise the loop mutates exactly the searchable
items in place, so the returned list is the input with every searchable item
enriched. -/
def searcherExecute (rawSearch : String → Except Unit (List SearchResult))
    (threshold : ℚ) (expenses : List Expense) : List Expense :=
  let searchable := expenses.filter (searchableCheck threshold)
  if searchable = [] then expenses
  else expenses.map (fun e => if searchableCheck threshold e then enrichOne rawSearch e else e)

/- ===================== StrategistAgent (backend/agents/strategist.py) ===================== -/

/-- Python text.split on the newline character. -/
def pySplitLines (s : String) : List String := s.split (fun c => c == '\n')

/-- Does the line start with the marker of a numbered or bulleted item
(re.match of one or more digits followed by a dot, or a hyphen, or an
asterisk, anchored at the start). -/
def lineMarker (cs : List Char) : Bool :=
  match cs with
  | [] => false
  | '-' :: _ => true
  | '*' :: _ => true
  | c :: _ => c.isDigit && ((cs.dropWhile Char.isDigit).head? == some '.')

/-- The re.sub removing the leading marker: first the digits-dot-whitespace
alternative, then the hyphen-or-asterisk-whitespace alternative. -/
def cleanMarker (cs : List Char) : List Char :=
  match cs with
  | [] => []
  | c :: t =>
    if c.isDigit && ((cs.dropWhile Char.isDigit).head? == some '.') then
      ((cs.dropWhile Char.isDigit).tail).dropWhile pyIsSpace
    else if c == '-' || c == '*' then t.dropWhile pyIsSpace
    else cs

/-- StrategistAgent._parse_response: strip and drop empty lines; skip
headers and lines mentioning status or recommendation; collect marked lines
(marker stripped, empties dropped) as recommendations; the first remaining
line longer than 20 characters becomes the summary; generic fallbacks when
nothing was found. -/
def parseResponse (text : String) : String × List String :=
  let lines := ((pySplitLines text).map pyStrip).filter (fun l => l ≠ "")
  let folded :=
    lines.foldl
      (fun (acc : String × List String) line =>
        let cs := line.data
        if cs.head? == some '#'
            || hasInfixChars "status".data (pyLower line).data
            || hasInfixChars "recommendation".data (pyLower line).data then acc
        else if lineMarker cs then
          let cleaned := cleanMarker cs
          if cleaned ≠ [] then (acc.1, acc.2 ++ [String.mk cleaned]) else acc
        else if acc.1 = "" ∧ 20 < cs.length then (line, acc.2)
        else acc)
      ("", [])
  (if folded.1 = "" then "Budget analysis completed." else folded.1,
   if folded.2 = [] then ["Track your expenses regularly.", "Create a budget plan."]
   else folded.2)

/-- Stable insertion of one breakdown entry into a list sorted by amount
descending: the new entry goes before the first strictly smaller or equal
entry it dominates, and before equal amounts only when it came earlier.
Together with the fold below this computes exactly Python
sorted(items, key of the amount, reverse=True), whose output (a stable
descending sort) is unique. -/
def insertByAmountDesc (x : String × ℚ) : List (String × ℚ) → List (String × ℚ)
  | [] => [x]
  | y :: ys => if y.2 ≤ x.2 then x :: y :: ys else y :: insertByAmountDesc x ys

/-- Python sorted by the amount, reverse=True (stable). -/
def sortByAmountDesc (l : List (String × ℚ)) : List (String × ℚ) :=
  l.foldr insertByAmountDesc []

/-- The extra-action predicate of StrategistAgent._generate_actions: the
share of the category exceeds 40 percent (0 when the total is not positive)
and the category name occurs in no existing action description. -/
def extraQualifies (a : Analysis) (actions : List ActionItem) (p : String × ℚ) : Bool :=
  let pct := if 0 < a.total_expenses then p.2 / a.total_expenses * 100 else 0
  40 < pct && !(actions.any (fun act => hasInfixChars p.1.data act.description.data))

/-- The trailing loop of StrategistAgent._generate_actions: walk the
breakdown in insertion order, and at the first qualifying category append
one MEDIUM action and stop. -/
def extraHighCategoryAction (a : Analysis) (actions : List ActionItem) : List ActionItem :=
  match a.category_breakdown.find? (extraQualifies a actions) with
  | some p =>
    let pct := if 0 < a.total_expenses then p.2 / a.total_expenses * 100 else 0
    actions ++
      [{ description := "Create savings plan for " ++ p.1 ++ " category"
         priority := .MEDIUM
         impact := some ("Excessively high percentage (" ++ fmtF1 pct ++ "%)")
         potential_savings := some (p.2 * 0.15 * 30 / (a.days_analyzed : ℚ)) }]
  | none => actions

/-- The status-dependent base list of StrategistAgent._generate_actions.
The dispatch compares the enum value strings exactly as the source does, so
UNKNOWN falls into the else branch together with OVER_BUDGET. Divisions are
total on rationals; the source would raise ZeroDivisionError on a zero
total (in the else branch) or zero days, but no analysis reaching the
strategist has either, because AnalystAgent already raises on them. -/
def generateActionsBase (a : Analysis) : List ActionItem :=
  let monthly_reduction := if a.monthly_projection ≠ 0 then a.monthly_projection * 0.1 else 0
  let top_categories := (sortByAmountDesc a.category_breakdown).take 2
  if a.budget_status.value == "HEALTHY" then
    [{ description := "Track your weekly expenses", priority := .LOW
       impact := some "Budget control", potential_savings := some 0 },
     { description := "Set a savings goal", priority := .LOW
       impact := some "Long-term planning", potential_savings := some (monthly_reduction * 2) }]
  else if a.budget_status.value == "WARNING" then
    (match top_categories with
     | top_cat :: _ =>
       [{ description := "Reduce " ++ top_cat.1 ++ " spending by 15%", priority := .MEDIUM
          impact := some ("Highest spending category (" ++ fmtF0 top_cat.2 ++ " TL)")
          potential_savings := some (top_cat.2 * 0.15 * 30 / (a.days_analyzed : ℚ)) }]
     | [] => []) ++
    [{ description := "Cancel unnecessary subscriptions", priority := .MEDIUM
       impact := some "Reduce recurring costs", potential_savings := some monthly_reduction }]
  else
    (match top_categories with
     | top_cat :: rest =>
       [{ description := "URGENT: Cut " ++ top_cat.1 ++ " spending by 30%", priority := .HIGH
          impact := some ("Highest category (" ++ fmtF0 top_cat.2 ++ " TL, "
                          ++ fmtF0 (top_cat.2 / a.total_expenses * 100) ++ "% of budget)")
          potential_savings := some (top_cat.2 * 0.30 * 30 / (a.days_analyzed : ℚ)) }] ++
       (match rest with
        | second_cat :: _ =>
          [{ description := "Reduce " ++ second_cat.1 ++ " spending by 20%", priority := .HIGH
             impact := some ("Second highest category (" ++ fmtF0 second_cat.2 ++ " TL)")
             potential_savings := some (second_cat.2 * 0.20 * 30 / (a.days_analyzed : ℚ)) }]
        | [] => [])
     | [] => []) ++
    [{ description := "Stop all non-essential spending immediately", priority := .URGENT
       impact := some "Budget at critical level", potential_savings := some (monthly_reduction * 2) }]

/-- StrategistAgent._generate_actions: the status-dependent base list
followed by the extra high-share category rule. -/
def generateActions (a : Analysis) : List ActionItem :=
  extraHighCategoryAction a (generateActionsBase a)

/-- StrategistAgent._generate_goals. -/
def generateGoals (a : Analysis) : List Goal :=
  [{ description := "Daily spending target", current_value := a.daily_rate
     target_value := a.daily_rate * 0.9, timeframe := "This month" },
   { description := "Monthly spending target", current_value := a.monthly_projection
     target_value := a.monthly_projection * 0.85, timeframe := "This month" }]

/-- StrategistAgent.execute with the backend response for the
recommendation prompt passed as the llmText oracle argument. -/
def strategistExecute (llmText : String) (a : Analysis) : Recommendation :=
  let parsed := parseResponse llmText
  { summary := parsed.1, recommendations := parsed.2
    action_items := generateActions a, goals := generateGoals a }

/- ===================== Orchestrator (backend/services/orchestrator.py) ===================== -/

/-- ClassifierAgent.execute: classify each text through the per-item oracle
(the composition of _parse and _categorize with the backend), appending the
successes and skipping items whose classification raised. -/
def classifierExecuteBatch (classifyOne : String → Except PyError Expense)
    (texts : List String) : List Expense :=
  texts.foldl
    (fun acc t =>
      match classifyOne t with
      | .ok e => acc ++ [e]
      | .error _ => acc)
    []

/-- The value returned by Orchestrator.analyze_expenses (the processing
time is wall clock and omitted; persistence is a sink with no influence on
the returned value and is omitted). -/
structure WorkflowResult where
  expenses : List Expense
  analysis : Analysis
  recommendation : Recommendation
deriving DecidableEq, Repr

/-- Stages 2 to 4 of Orchestrator.analyze_expenses, applied to the already
classified non-empty expense list: optional search (the agent exists when
search was enabled at construction, and runs when the call flag is also
set), analysis, strategy. -/
def analyzeClassified (rawSearch : String → Except Unit (List SearchResult))
    (llmText : String) (enableCodeExecutor sandboxOk : Bool)
    (searcherEnabled : Bool) (searchThreshold : ℚ)
    (expenses : List Expense) (income : Option ℚ) (days_analyzed : ℕ)
    (enable_search : Bool) : Except PyError WorkflowResult :=
  let expenses :=
    if enable_search ∧ searcherEnabled then searcherExecute rawSearch searchThreshold expenses
    else expenses
  match analystExecute enableCodeExecutor sandboxOk expenses days_analyzed income with
  | .error e => .error e
  | .ok analysis =>
    let recommendation := strategistExecute llmText analysis
    .ok { expenses := expenses, analysis := analysis, recommendation := recommendation }

/-- Orchestrator.analyze_expenses: classify, raise ValueError when nothing
was classified, then run the remaining stages. -/
def analyzeExpenses (classifyOne : String → Except PyError Expense)
    (rawSearch : String → Except Unit (List SearchResult)) (llmText : String)
    (enableCodeExecutor sandboxOk : Bool)
    (searcherEnabled : Bool) (searchThreshold : ℚ)
    (expense_texts : List String) (income : Option ℚ) (days_analyzed : ℕ)
    (enable_search : Bool) : Except PyError WorkflowResult :=
  let expenses := classifierExecuteBatch classifyOne expense_texts
  if expenses = [] then .error (.valueError "No expenses were successfully classified")
  else analyzeClassified rawSearch llmText enableCodeExecutor sandboxOk searcherEnabled
    searchThreshold expenses income days_analyzed enable_search

/-- Is the outcome a validation error (a raised ValueError, which the API
layer maps to a client error response). -/
def isValidationError {α : Type} : Except PyError α → Bool
  | .error (.valueError _) => true
  | _ => false

/- ===================== specification-side restatement of the deterministic
     action-item algorithm (spec section 4.7), for the refinement claims.
     An action is compared on its claim-relevant shape: description,
     priority and potential savings; impact strings are glosses. ===================== -/

/-- The claim-relevant shape of an action item. -/
def actionShape (it : ActionItem) : String × ActionPriority × Option ℚ :=
  (it.description, it.priority, it.potential_savings)

/-- The 10-percent-of-monthly-projection baseline of the spec. -/
def specBaseline (a : Analysis) : ℚ := 0.1 * a.monthly_projection

/-- Spec wording for a category-specific 15 percent reduction:
savings = category amount x 0.15 x 30 / daysAnalyzed. -/
def specCatSavings (a : Analysis) (amount : ℚ) : ℚ :=
  amount * 0.15 * 30 / (a.days_analyzed : ℚ)

/-- HEALTHY per the claim: two LOW items, the second carrying twice the
baseline as savings. -/
def specHealthyShapes : Analysis → List (String × ActionPriority × Option ℚ) :=
  fun a =>
    [("Track your weekly expenses", .LOW, some 0),
     ("Set a savings goal", .LOW, some (2 * specBaseline a))]

/-- WARNING per the claim: one MEDIUM item targeting the top category with
the 15 percent savings formula, plus one generic MEDIUM item carrying the
baseline. Only used under the hypothesis that a top category exists. -/
def specWarningShapes (a : Analysis) : List (String × ActionPriority × Option ℚ) :=
  match sortByAmountDesc a.category_breakdown with
  | top :: _ =>
    [("Reduce " ++ top.1 ++ " spending by 15%", .MEDIUM, some (specCatSavings a top.2)),
     ("Cancel unnecessary subscriptions", .MEDIUM, some (specBaseline a))]
  | [] => []

/-- OVER_BUDGET per the claim: a HIGH cut-30-percent item for the first
category, a HIGH cut-20-percent item for the second when present, and one
URGENT generic item carrying twice the baseline. -/
def specOverBudgetShapes (a : Analysis) : List (String × ActionPriority × Option ℚ) :=
  (match sortByAmountDesc a.category_breakdown with
   | top :: rest =>
     ("URGENT: Cut " ++ top.1 ++ " spending by 30%", ActionPriority.HIGH,
       some (top.2 * 0.30 * 30 / (a.days_analyzed : ℚ))) ::
     (match rest with
      | second :: _ =>
        [("Reduce " ++ second.1 ++ " spending by 20%", ActionPriority.HIGH,
          some (second.2 * 0.20 * 30 / (a.days_analyzed : ℚ)))]
      | [] => [])
   | [] => []) ++
  [("Stop all non-essential spending immediately", .URGENT, some (2 * specBaseline a))]

/-- The extra rule per the claim, stated on shapes: the first category in
breakdown order whose share of the total exceeds 40 percent and whose name
occurs in no existing action description gets one appended MEDIUM item with
the 15 percent savings formula. -/
def specExtraShapes (a : Analysis) (existing : List (String × ActionPriority × Option ℚ)) :
    List (String × ActionPriority × Option ℚ) :=
  match a.category_breakdown.find?
      (fun p => 40 < p.2 / a.total_expenses * 100
        && !(existing.any (fun sh => hasInfixChars p.1.data sh.1.data))) with
  | some p =>
    [("Create savings plan for " ++ p.1 ++ " category", .MEDIUM, some (specCatSavings a p.2))]
  | none => []

/-- The whole algorithm as the claim words it, on shapes, for the three
statuses the claim describes (the UNKNOWN branch is outside this claim). -/
def claimedActionShapes (a : Analysis) : List (String × ActionPriority × Option ℚ) :=
  let base :=
    match a.budget_status with
    | .HEALTHY => specHealthyShapes a
    | .WARNING => specWarningShapes a
    | .OVER_BUDGET => specOverBudgetShapes a
    | .UNKNOWN => []
  base ++ specExtraShapes a base

/-- The status dispatch exactly as the source performs it: the else branch
of the value-string comparison chain covers both OVER_BUDGET and UNKNOWN. -/
def specBaseShapes (a : Analysis) : List (String × ActionPriority × Option ℚ) :=
  match a.budget_status with
  | .HEALTHY => specHealthyShapes a
  | .WARNING => specWarningShapes a
  | .OVER_BUDGET => specOverBudgetShapes a
  | .UNKNOWN => specOverBudgetShapes a

/- ===================== helper lemmas ===================== -/

theorem dropWhile_append_left {α : Type} {p : α → Bool} {xs : List α} (ys : List α)
    (h : xs.dropWhile p ≠ []) : (xs ++ ys).dropWhile p = xs.dropWhile p ++ ys := by
  rw [List.dropWhile_append]
  simp only [List.isEmpty_iff, h, if_false]

theorem dropWhile_append_all {α : Type} {p : α → Bool} {xs : List α} (ys : List α)
    (h : ∀ c ∈ xs, p c) : (xs ++ ys).dropWhile p = ys.dropWhile p := by
  rw [List.dropWhile_append]
  have : xs.dropWhile p = [] := List.dropWhile_eq_nil_iff.mpr h
  simp [this]

theorem dropWhile_cons_false {α : Type} {p : α → Bool} {c : α} {t : List α}
    (h : p c = false) : (c :: t).dropWhile p = c :: t := by
  simp [List.dropWhile_cons, h]

theorem takeWhile_append_all {α : Type} {p : α → Bool} {xs : List α} (ys : List α)
    (h : ∀ c ∈ xs, p c) : (xs ++ ys).takeWhile p = xs ++ ys.takeWhile p := by
  rw [List.takeWhile_append]
  have : xs.takeWhile p = xs := List.takeWhile_eq_self_iff.mpr h
  simp [this]

theorem takeWhile_cons_false {α : Type} {p : α → Bool} {c : α} {t : List α}
    (h : p c = false) : (c :: t).takeWhile p = [] := by
  simp [List.takeWhile_cons, h]

theorem getLast?_dropWhile {α : Type} {p : α → Bool} {l : List α}
    (h : l.dropWhile p ≠ []) : (l.dropWhile p).getLast? = l.getLast? := by
  induction l with
  | nil => simp at h
  | cons c t ih =>
    by_cases hc : p c
    · rw [List.dropWhile_cons, if_pos hc] at h ⊢
      rw [ih h]
      have ht : t ≠ [] := by
        intro he
        rw [he] at h
        simp at h
      cases t with
      | nil => exact absurd rfl ht
      | cons d u => simp [List.getLast?_cons_cons]
    · rw [dropWhile_cons_false (by simp [hc])]

theorem dropWhile_head_false {α : Type} {p : α → Bool} {c : α} {t : List α} :
    ∀ {l : List α}, l.dropWhile p = c :: t → p c = false := by
  intro l
  induction l with
  | nil => intro h; simp at h
  | cons d u ih =>
    intro h
    rw [List.dropWhile_cons] at h
    by_cases hd : p d
    · rw [if_pos hd] at h
      exact ih h
    · rw [if_neg hd] at h
      injection h with h1 h2
      subst h1
      cases hpd : p d
      · rfl
      · exact absurd hpd hd

theorem trimChars_front_clean (l : List Char) :
    (trimChars l).dropWhile pyIsSpace = trimChars l := by
  unfold trimChars
  set A := l.dropWhile pyIsSpace with hA
  cases hB : A.reverse.dropWhile pyIsSpace with
  | nil => rfl
  | cons b bs =>
    cases hrev : (b :: bs).reverse with
    | nil => simp at hrev
    | cons c t =>
      have hlast : (b :: bs).getLast? = some c := by
        rw [← List.head?_reverse, hrev]
        rfl
      have hlastA : A.reverse.getLast? = some c := by
        rw [← getLast?_dropWhile (l := A.reverse) (p := pyIsSpace) (by rw [hB]; simp), hB]
        exact hlast
      have hheadA : A.head? = some c := by
        rw [← List.getLast?_reverse]
        exact hlastA
      have hcw : pyIsSpace c = false := by
        cases hAe : A with
        | nil => rw [hAe] at hheadA; simp at hheadA
        | cons d u =>
          rw [hAe] at hheadA
          simp only [List.head?_cons, Option.some.injEq] at hheadA
          exact hheadA ▸ dropWhile_head_false (hA.symm.trans hAe)
      exact dropWhile_cons_false hcw

theorem trimChars_idem (l : List Char) : trimChars (trimChars l) = trimChars l := by
  conv_lhs => rw [trimChars]
  rw [trimChars_front_clean]
  have hrev : (trimChars l).reverse
      = (l.dropWhile pyIsSpace).reverse.dropWhile pyIsSpace := by
    unfold trimChars
    rw [List.reverse_reverse]
  rw [hrev]
  set B := (l.dropWhile pyIsSpace).reverse.dropWhile pyIsSpace with hBdef
  have hTl : trimChars l = B.reverse := rfl
  rw [hTl]
  cases hBv : B with
  | nil => rfl
  | cons b bs =>
    rw [dropWhile_cons_false (dropWhile_head_false (hBdef.symm.trans hBv))]

theorem sandboxAgg_eq_fallback (expenses : List Expense) :
    sandboxAggLoop (expenses.map (fun e => (e.category.value, e.amount)))
      = fallbackCategoryTotals expenses := by
  unfold sandboxAggLoop fallbackCategoryTotals
  suffices h : ∀ init : List (String × ℚ),
      List.foldl
        (fun ct p =>
          match dictGet? ct p.1 with
          | some old => dictSet ct p.1 (old + p.2)
          | none => dictSet ct p.1 p.2)
        init (expenses.map (fun e => (e.category.value, e.amount)))
      = List.foldl
          (fun ct e => dictSet ct e.category.value (dictGetD ct e.category.value 0 + e.amount))
          init expenses from h []
  induction expenses with
  | nil => intro init; rfl
  | cons e t ih =>
    intro init
    simp only [List.map_cons, List.foldl_cons]
    rw [ih]
    congr 1
    cases h : dictGet? init e.category.value with
    | some old => simp [dictGetD, h]
    | none => simp [dictGetD, h]

/-- C1: for every expense batch and its total, the sandboxed aggregation
path of AnalystAgent._calculate_breakdown_with_code and the plain
in-process fallback loop compute the identical category-to-total mapping,
and the public breakdown is produced whether the sandbox succeeds or fails,
with a value independent of which path ran. -/
theorem C1_sandbox_fallback_equivalence :
    ∀ (sandboxOk : Bool) (expenses : List Expense) (total : ℚ),
      calculateBreakdownWithCode sandboxOk expenses total = fallbackCategoryTotals expenses := by
  intro ok expenses total
  unfold calculateBreakdownWithCode codeExecutorExecute generatedBreakdownCode
  cases ok with
  | false => rfl
  | true =>
    simp only [if_true]
    cases h : sandboxPercentLoop
        (sandboxAggLoop (expenses.map (fun e => (e.category.value, e.amount)))) total with
    | ok v => simp [h, sandboxAgg_eq_fallback]
    | error e => simp [h]

/-- C2: BudgetStatus.from_percentage maps a negative percentage to UNKNOWN,
a percentage in [0, 80) to HEALTHY, one in [80, 100] to WARNING and one
above 100 to OVER_BUDGET; in particular 0 and 79.999 map to HEALTHY, 80 and
100 to WARNING, 100.001 to OVER_BUDGET and -1 to UNKNOWN. -/
theorem C2_from_percentage_cases :
    (∀ p : ℚ, p < 0 → BudgetStatus.from_percentage p = .UNKNOWN) ∧
    (∀ p : ℚ, 0 ≤ p → p < 80 → BudgetStatus.from_percentage p = .HEALTHY) ∧
    (∀ p : ℚ, 80 ≤ p → p ≤ 100 → BudgetStatus.from_percentage p = .WARNING) ∧
    (∀ p : ℚ, 100 < p → BudgetStatus.from_percentage p = .OVER_BUDGET) ∧
    BudgetStatus.from_percentage 0 = .HEALTHY ∧
    BudgetStatus.from_percentage 79.999 = .HEALTHY ∧
    BudgetStatus.from_percentage 80 = .WARNING ∧
    BudgetStatus.from_percentage 100 = .WARNING ∧
    BudgetStatus.from_percentage 100.001 = .OVER_BUDGET ∧
    BudgetStatus.from_percentage (-1) = .UNKNOWN := by
  refine ⟨?_, ?_, ?_, ?_, ?_, ?_, ?_, ?_, ?_, ?_⟩
  · intro p h
    simp [BudgetStatus.from_percentage, h]
  · intro p h0 h80
    simp [BudgetStatus.from_percentage, not_lt.mpr h0, h80]
  · intro p h80 h100
    simp [BudgetStatus.from_percentage, not_lt.mpr (by linarith : (0:ℚ) ≤ p),
          not_lt.mpr h80, h100]
  · intro p h
    simp [BudgetStatus.from_percentage, not_lt.mpr (by linarith : (0:ℚ) ≤ p),
          not_lt.mpr (by linarith : (80:ℚ) ≤ p), not_le.mpr h]
  · norm_num [BudgetStatus.from_percentage]
  · norm_num [BudgetStatus.from_percentage]
  · norm_num [BudgetStatus.from_percentage]
  · norm_num [BudgetStatus.from_percentage]
  · norm_num [BudgetStatus.from_percentage]
  · norm_num [BudgetStatus.from_percentage]

/-- Witness for C2 at the concrete percentage 50. -/
theorem C2_witness : BudgetStatus.from_percentage 50 = .HEALTHY :=
  C2_from_percentage_cases.2.1 50 (by norm_num) (by norm_num)

theorem trendsLoop_ok {total : ℚ} (h : total ≠ 0) :
    ∀ (bd : List (String × ℚ)) (acc : List (String × ℚ × ℚ)),
      ∃ ts, trendsLoopAux total acc bd = .ok ts := by
  intro bd
  induction bd with
  | nil => intro acc; exact ⟨acc, rfl⟩
  | cons p t ih =>
    intro acc
    simp only [trendsLoopAux, if_neg h]
    exact ih _

theorem remaining_as_max {i proj : ℚ} :
    (if i > proj then i - proj else 0) = max 0 (i - proj) := by
  rcases lt_or_le proj i with hlt | hle
  · rw [if_pos hlt, max_eq_right (by linarith)]
  · rw [if_neg (not_lt.mpr hle), max_eq_left (by linarith)]

/-- Universal behaviour of AnalystAgent.execute on inputs with a nonzero
amount sum, positive day count and optional positive income. -/
theorem analystExecute_spec :
    ∀ (eCE sOk : Bool) (expenses : List Expense) (days : ℕ) (income : Option ℚ),
      expenses ≠ [] → 1 ≤ days → (expenses.map Expense.amount).sum ≠ 0 →
      (∀ i ∈ income, 0 < i) →
      ∃ a, analystExecute eCE sOk expenses days income = .ok a
        ∧ a.total_expenses = (expenses.map Expense.amount).sum
        ∧ a.daily_rate = a.total_expenses / (days : ℚ)
        ∧ a.monthly_projection = a.daily_rate * 30
        ∧ (∀ i, income = some i →
            a.usage_percentage = some (a.monthly_projection / i * 100)
            ∧ a.budget_status = BudgetStatus.from_percentage (a.monthly_projection / i * 100)
            ∧ a.remaining_budget = some (max 0 (i - a.monthly_projection)))
        ∧ (income = none →
            a.budget_status = .UNKNOWN ∧ a.usage_percentage = none ∧ a.remaining_budget = none) := by
  intro eCE sOk expenses days income hne hdays htot hinc
  have hdays0 : days ≠ 0 := by omega
  simp only [analystExecute, if_neg hne, if_neg hdays0, trendsCalc]
  obtain ⟨ts, hts⟩ := trendsLoop_ok htot
    (if eCE then calculateBreakdownWithCode sOk expenses ((expenses.map Expense.amount).sum)
     else fallbackCategoryTotals expenses) []
  rw [hts]
  refine ⟨_, rfl, rfl, rfl, rfl, ?_, ?_⟩
  · intro i hi
    subst hi
    have hipos : 0 < i := hinc i rfl
    have hi0 : i ≠ 0 := ne_of_gt hipos
    refine ⟨?_, ?_, ?_⟩ <;>
      simp [analystBudgetFields, if_neg hi0, remaining_as_max]
  · intro hnone
    subst hnone
    exact ⟨rfl, rfl, rfl⟩

/-- C3 (amended): for every non-empty expense list with nonzero amount sum,
every daysAnalyzed at least 1 and every optional positive income,
AnalystAgent.execute returns an Analysis with total the sum of amounts,
dailyRate total over days, monthlyProjection thirty times the daily rate;
with income present the usage percentage, the status through
BudgetStatus.from_percentage and the clamped remaining budget are filled,
and with income absent the status is UNKNOWN and those fields are absent.
On the spec example (total 8470 over 7 days, income 15000) this gives
1210, 36300, 242 percent, OVER_BUDGET and zero remaining. The nonzero-sum
hypothesis is forced by the counterexample: on an all-zero batch the
source raises ZeroDivisionError in the trend loop. -/
theorem C3_analyze_metrics :
    (∀ (eCE sOk : Bool) (expenses : List Expense) (days : ℕ) (income : Option ℚ),
      expenses ≠ [] → 1 ≤ days → (expenses.map Expense.amount).sum ≠ 0 →
      (∀ i ∈ income, 0 < i) →
      ∃ a, analystExecute eCE sOk expenses days income = .ok a
        ∧ a.total_expenses = (expenses.map Expense.amount).sum
        ∧ a.daily_rate = a.total_expenses / (days : ℚ)
        ∧ a.monthly_projection = a.daily_rate * 30
        ∧ (∀ i, income = some i →
            a.usage_percentage = some (a.monthly_projection / i * 100)
            ∧ a.budget_status = BudgetStatus.from_percentage (a.monthly_projection / i * 100)
            ∧ a.remaining_budget = some (max 0 (i - a.monthly_projection)))
        ∧ (income = none →
            a.budget_status = .UNKNOWN ∧ a.usage_percentage = none ∧ a.remaining_budget = none))
    ∧ (∃ b, analystExecute true true
          [{ description := "a", amount := 470, category := .FOOD },
           { description := "b", amount := 8000, category := .SHOPPING }] 7 (some 15000) = .ok b
        ∧ b.total_expenses = 8470 ∧ b.daily_rate = 1210 ∧ b.monthly_projection = 36300
        ∧ b.usage_percentage = some 242 ∧ b.budget_status = .OVER_BUDGET
        ∧ b.remaining_budget = some 0) := by
  refine ⟨analystExecute_spec, ?_⟩
  refine ⟨{ total_expenses := 8470, daily_rate := 1210, monthly_projection := 36300,
            days_analyzed := 7,
            category_breakdown := [("FOOD", 470), ("SHOPPING", 8000)],
            budget_status := .OVER_BUDGET, income := some 15000,
            remaining_budget := some 0, usage_percentage := some 242,
            trends := [("SHOPPING", 8000, 80000 / 847)] }, ?_, rfl, rfl, rfl, rfl, rfl, rfl⟩
  norm_num [analystExecute, calculateBreakdownWithCode, codeExecutorExecute,
    generatedBreakdownCode, sandboxAggLoop, sandboxPercentLoop, percentLoopAux,
    trendsCalc, trendsLoopAux, dictGet?, dictSet, dictGetD, pyRound2, roundHalfEven,
    analystBudgetFields, BudgetStatus.from_percentage, ExpenseCategory.value,
    categoryFromValue?, allCategories]
  simp

/-- Witness for C3 at the spec example inputs. -/
theorem C3_witness :
    ∃ a, analystExecute true true
        [{ description := "a", amount := 470, category := .FOOD },
         { description := "b", amount := 8000, category := .SHOPPING }] 7 (some 15000) = .ok a
      ∧ a.total_expenses
          = (([{ description := "a", amount := 470, category := .FOOD },
               { description := "b", amount := 8000, category := ExpenseCategory.SHOPPING }]
              : List Expense).map Expense.amount).sum
      ∧ a.daily_rate = a.total_expenses / (7 : ℚ)
      ∧ a.monthly_projection = a.daily_rate * 30
      ∧ (∀ i, (some (15000 : ℚ)) = some i →
          a.usage_percentage = some (a.monthly_projection / i * 100)
          ∧ a.budget_status = BudgetStatus.from_percentage (a.monthly_projection / i * 100)
          ∧ a.remaining_budget = some (max 0 (i - a.monthly_projection)))
      ∧ ((some (15000 : ℚ)) = none →
          a.budget_status = .UNKNOWN ∧ a.usage_percentage = none ∧ a.remaining_budget = none) :=
  C3_analyze_metrics.1 true true _ 7 (some 15000) (by simp) (by norm_num)
    (by norm_num) (by intro i hi; rw [Option.mem_def] at hi; injection hi with h; rw [← h]; norm_num)

/-- C3 counterexample: on a non-empty batch whose amounts sum to zero (one
zero-amount sentinel expense) the analyst raises ZeroDivisionError in the
trend loop instead of returning an Analysis, refuting the claim as stated
for every non-empty expense list. -/
theorem C3_counterexample :
    analystExecute true true [{ description := "x", amount := 0, category := .OTHER }] 1 none
      = .error .zeroDivisionError := by
  norm_num [analystExecute, calculateBreakdownWithCode, codeExecutorExecute,
    generatedBreakdownCode, sandboxAggLoop, sandboxPercentLoop, percentLoopAux,
    trendsCalc, trendsLoopAux, dictGet?, dictSet, dictGetD, pyRound2, roundHalfEven,
    fallbackCategoryTotals, ExpenseCategory.value]

theorem trendsLoop_error {total : ℚ} :
    ∀ (bd : List (String × ℚ)) (acc : List (String × ℚ × ℚ)) (e : PyError),
      trendsLoopAux total acc bd = .error e → e = .zeroDivisionError := by
  intro bd
  induction bd with
  | nil => intro acc e h; simp [trendsLoopAux] at h
  | cons p t ih =>
    intro acc e h
    simp only [trendsLoopAux] at h
    by_cases h0 : total = 0
    · rw [if_pos h0] at h
      injection h with h'
      exact h'.symm
    · rw [if_neg h0] at h
      exact ih _ _ h

theorem analyst_no_validation {expenses : List Expense} (h : expenses ≠ [])
    (eCE sOk : Bool) (days : ℕ) (income : Option ℚ) :
    ∀ m, analystExecute eCE sOk expenses days income ≠ .error (.valueError m) := by
  intro m
  simp only [analystExecute, if_neg h]
  by_cases hd : days = 0
  · simp [hd]
  · simp only [if_neg hd]
    split
    · next e het =>
      have := trendsLoop_error _ _ _ het
      subst this
      simp
    · next trends het => simp

theorem searcherExecute_ne_nil {es : List Expense}
    (raw : String → Except Unit (List SearchResult)) (thr : ℚ) (h : es ≠ []) :
    searcherExecute raw thr es ≠ [] := by
  simp only [searcherExecute]
  split
  · exact h
  · simpa using h

theorem analyzeClassified_no_validation {expenses : List Expense} (h : expenses ≠ [])
    (rawSearch : String → Except Unit (List SearchResult)) (llmText : String)
    (eCE sOk sEn : Bool) (thr : ℚ) (income : Option ℚ) (days : ℕ) (es : Bool) :
    isValidationError (analyzeClassified rawSearch llmText eCE sOk sEn thr expenses income days es)
      = false := by
  simp only [analyzeClassified]
  set final := if es ∧ sEn then searcherExecute rawSearch thr expenses else expenses with hfd
  have hfin : final ≠ [] := by
    rw [hfd]
    split
    · exact searcherExecute_ne_nil rawSearch thr h
    · exact h
  cases han : analystExecute eCE sOk final days income with
  | ok a => simp [isValidationError, han]
  | error e =>
    cases e with
    | valueError m => exact absurd han (analyst_no_validation hfin eCE sOk days income m)
    | zeroDivisionError => simp [isValidationError, han]
    | typeError => simp [isValidationError, han]
    | keyError => simp [isValidationError, han]
    | jsonDecodeError => simp [isValidationError, han]

/-- C6: the whole-pipeline operation fails with a validation error, with no
analysis performed, exactly when the classification stage yields zero
expenses; the empty text list yields zero classified expenses; and the
analyst itself raises its precondition ValueError on an empty expense list
for every days and income argument. -/
theorem C6_empty_batch_validation :
    (∀ (classifyOne : String → Except PyError Expense)
       (rawSearch : String → Except Unit (List SearchResult)) (llmText : String)
       (eCE sOk sEn : Bool) (thr : ℚ) (texts : List String) (income : Option ℚ)
       (days : ℕ) (es : Bool),
      isValidationError
          (analyzeExpenses classifyOne rawSearch llmText eCE sOk sEn thr texts income days es)
        = true
      ↔ classifierExecuteBatch classifyOne texts = [])
    ∧ (∀ classifyOne : String → Except PyError Expense,
        classifierExecuteBatch classifyOne [] = [])
    ∧ (∀ (eCE sOk : Bool) (days : ℕ) (income : Option ℚ),
        analystExecute eCE sOk [] days income
          = .error (.valueError "Cannot analyze empty expenses")) := by
  refine ⟨?_, fun _ => rfl, fun _ _ _ _ => rfl⟩
  intro classifyOne rawSearch llmText eCE sOk sEn thr texts income days es
  by_cases h : classifierExecuteBatch classifyOne texts = []
  · simp [analyzeExpenses, h, isValidationError]
  · refine iff_of_false ?_ h
    simp only [analyzeExpenses, if_neg h]
    rw [analyzeClassified_no_validation h]
    simp

/-- C9 (amended): on ASCII descriptions (where the embedded ASCII case map
is exactly str.lower, and where the non-ASCII keyword spellings of the
source can match in neither the program nor the embedding) classification
first runs the case-insensitive substring match of the keyword lists in
declaration order and the earliest declared category with a hit wins; only
with no hit is the backend consulted, and any ASCII response whose
uppercased and stripped form is not a category value gives OTHER; classify
of the text starbucks latte is FOOD; classify of the text asus laptop is
UTILITIES (not SHOPPING: the utilities keyword su occurs inside asus and
UTILITIES is declared before SHOPPING). -/
theorem C9_keyword_priority_classification :
    (∀ desc : String, isAsciiStr desc = true →
      (ExpenseCategory.from_keywords desc = .OTHER
        ∧ ∀ p ∈ keywordsMap, keywordHit (pyLower desc) p = false)
      ∨ (∃ pre p post, keywordsMap = pre ++ p :: post
          ∧ ExpenseCategory.from_keywords desc = p.1
          ∧ keywordHit (pyLower desc) p = true
          ∧ ∀ q ∈ pre, keywordHit (pyLower desc) q = false))
    ∧ (∀ (desc resp : String), isAsciiStr desc = true →
        ExpenseCategory.from_keywords desc ≠ .OTHER →
        classifierCategorize desc resp = ExpenseCategory.from_keywords desc)
    ∧ (∀ (desc resp : String), isAsciiStr desc = true → isAsciiStr resp = true →
        ExpenseCategory.from_keywords desc = .OTHER →
        (∀ c : ExpenseCategory, pyStrip (pyUpper resp) ≠ c.value) →
        classifierCategorize desc resp = .OTHER)
    ∧ classifierCategorize "starbucks latte" "" = .FOOD := by
  refine ⟨?_, ?_, ?_, by decide⟩
  · intro desc _
    cases hf : keywordsMap.find? (keywordHit (pyLower desc)) with
    | none =>
      left
      refine ⟨by simp [ExpenseCategory.from_keywords, hf], ?_⟩
      intro p hp
      have := List.find?_eq_none.mp hf p hp
      simpa using this
    | some p =>
      right
      obtain ⟨hp, as, bs, heq, hall⟩ := List.find?_eq_some.mp hf
      refine ⟨as, p, bs, heq, by simp [ExpenseCategory.from_keywords, hf], hp, ?_⟩
      intro q hq
      have := hall q hq
      simpa using this
  · intro desc resp _ hne
    simp [classifierCategorize, hne]
  · intro desc resp _ _ hfk hnv
    have hnone : categoryFromValue? (pyStrip (pyUpper resp)) = none := by
      apply List.find?_eq_none.mpr
      intro c _
      simp only [beq_iff_eq]
      exact fun hc => hnv c hc.symm
    simp [classifierCategorize, hfk, hnone]

/-- Witness for C9 on the text starbucks latte with an arbitrary backend
response. -/
theorem C9_witness :
    classifierCategorize "starbucks latte" ""
      = ExpenseCategory.from_keywords "starbucks latte" :=
  C9_keyword_priority_classification.2.1 "starbucks latte" "" (by decide) (by decide)

/-- C9 counterexample: the claimed example classify of asus laptop giving
SHOPPING is false: the keyword-first pass returns UTILITIES, because the
utilities keyword su occurs as a substring of asus and UTILITIES is declared
before SHOPPING. -/
theorem C9_counterexample :
    classifierCategorize "asus laptop" "" = .UTILITIES
      ∧ ExpenseCategory.UTILITIES ≠ ExpenseCategory.SHOPPING := by
  refine ⟨by decide, by decide⟩

theorem map_self_of_mem {α : Type} {f : α → α} {l : List α} (h : ∀ x ∈ l, f x = x) :
    l.map f = l := by
  induction l with
  | nil => rfl
  | cons a t ih =>
    simp only [List.map_cons]
    rw [h a (by simp), ih (fun x hx => h x (by simp [hx]))]

theorem searcherExecute_eq_map (raw : String → Except Unit (List SearchResult))
    (thr : ℚ) (es : List Expense) :
    searcherExecute raw thr es
      = es.map (fun e => if searchableCheck thr e then enrichOne raw e else e) := by
  simp only [searcherExecute]
  split
  · next hf =>
    refine (map_self_of_mem ?_).symm
    intro e he
    have := List.filter_eq_nil_iff.mp hf e he
    simp only [Bool.not_eq_true] at this
    rw [this]
    simp
  · rfl

theorem enrichOne_preserves (raw : String → Except Unit (List SearchResult)) (e : Expense) :
    (enrichOne raw e).description = e.description
    ∧ (enrichOne raw e).amount = e.amount
    ∧ (enrichOne raw e).category = e.category := by
  unfold enrichOne searchProductPrice
  cases raw (e.description ++ " fiyat") with
  | ok r =>
    by_cases hr : r ≠ []
    · simp [hr]
    · simp [hr]
  | error u => exact ⟨rfl, rfl, rfl⟩

/-- C8 (amended): an expense is searched iff its amount is at least the
threshold or is the zero sentinel; the searcher output is the input list
with exactly the selected expenses enriched; description, amount and
category of every expense are preserved; a selected expense whose search
returns a nonempty result list gets the first three results plus the
searched flag written into its metadata, while an empty result list or a
raising search leaves the expense completely unchanged (in particular no
searched flag is written); and when nothing is searchable the call is the
identity. -/
theorem C8_searcher_enrichment :
    (∀ (thr : ℚ) (e : Expense),
        searchableCheck thr e = true ↔ (thr ≤ e.amount ∨ e.amount = 0))
    ∧ (∀ (raw : String → Except Unit (List SearchResult)) (thr : ℚ) (es : List Expense),
        searcherExecute raw thr es
          = es.map (fun e => if searchableCheck thr e then enrichOne raw e else e))
    ∧ (∀ (raw : String → Except Unit (List SearchResult)) (thr : ℚ) (es : List Expense),
        (searcherExecute raw thr es).map (fun e => (e.description, e.amount, e.category))
          = es.map (fun e => (e.description, e.amount, e.category)))
    ∧ (∀ (raw : String → Except Unit (List SearchResult)) (e : Expense) (r : List SearchResult),
        raw (e.description ++ " fiyat") = .ok r →
        enrichOne raw e
          = if r = [] then e
            else { e with metadata := { search_results := some (r.take 3),
                                        searched := some true } })
    ∧ (∀ (raw : String → Except Unit (List SearchResult)) (e : Expense) (u : Unit),
        raw (e.description ++ " fiyat") = .error u → enrichOne raw e = e)
    ∧ (∀ (raw : String → Except Unit (List SearchResult)) (thr : ℚ) (es : List Expense),
        (∀ e ∈ es, searchableCheck thr e = false) → searcherExecute raw thr es = es) := by
  refine ⟨?_, searcherExecute_eq_map, ?_, ?_, ?_, ?_⟩
  · intro thr e
    simp [searchableCheck, beq_iff_eq]
  · intro raw thr es
    rw [searcherExecute_eq_map, List.map_map]
    apply List.map_congr_left
    intro e _
    by_cases hc : searchableCheck thr e
    · obtain ⟨h1, h2, h3⟩ := enrichOne_preserves raw e
      simp [hc, h1, h2, h3]
    · simp [hc]
  · intro raw e r hr
    unfold enrichOne searchProductPrice
    rw [hr]
    by_cases hre : r = []
    · simp [hre]
    · simp [hre]
  · intro raw e u hr
    unfold enrichOne searchProductPrice
    rw [hr]
  · intro raw thr es h
    rw [searcherExecute_eq_map]
    exact map_self_of_mem (fun e he => by rw [h e he]; simp)

/-- Witness for C8: a sub-threshold nonzero expense is not searchable and
the searcher is the identity on a batch containing only it. -/
theorem C8_witness :
    searcherExecute (fun _ => .ok []) 100
        [{ description := "kahve", amount := 5, category := .FOOD }]
      = [{ description := "kahve", amount := 5, category := .FOOD }] :=
  C8_searcher_enrichment.2.2.2.2.2 _ 100 _ (by
    intro e he
    simp only [List.mem_singleton] at he
    subst he
    simp [searchableCheck]
    norm_num)

/-- C8 counterexample: a selected expense (amount 150, threshold 100) whose
search succeeds with an empty result list is returned completely unchanged:
no searched flag is attached, refuting the claim that every selected
expense gets the flag. -/
theorem C8_counterexample :
    searcherExecute (fun _ => .ok []) 100
        [{ description := "pahali urun", amount := 150, category := .OTHER }]
      = [{ description := "pahali urun", amount := 150, category := .OTHER }]
    ∧ searchableCheck 100
        { description := "pahali urun", amount := 150, category := .OTHER } = true
    ∧ ({ description := "pahali urun", amount := 150, category := .OTHER }
        : Expense).metadata.searched = none := by
  refine ⟨?_, ?_, rfl⟩
  · simp [searcherExecute, searchableCheck, enrichOne, searchProductPrice]
  · simp [searchableCheck]
    norm_num

theorem insertByAmountDesc_perm (x : String × ℚ) (l : List (String × ℚ)) :
    (insertByAmountDesc x l).Perm (x :: l) := by
  induction l with
  | nil => exact List.Perm.refl _
  | cons y ys ih =>
    simp only [insertByAmountDesc]
    by_cases h : y.2 ≤ x.2
    · rw [if_pos h]
    · rw [if_neg h]
      exact (ih.cons y).trans (List.Perm.swap x y ys)

theorem sortByAmountDesc_perm (l : List (String × ℚ)) : (sortByAmountDesc l).Perm l := by
  induction l with
  | nil => exact List.Perm.refl _
  | cons a t ih =>
    simp only [sortByAmountDesc, List.foldr_cons]
    exact (insertByAmountDesc_perm a _).trans (ih.cons a)

theorem insertByAmountDesc_sorted {x : String × ℚ} {l : List (String × ℚ)}
    (h : List.Sorted (fun p q : String × ℚ => q.2 ≤ p.2) l) :
    List.Sorted (fun p q : String × ℚ => q.2 ≤ p.2) (insertByAmountDesc x l) := by
  induction l with
  | nil => simp [insertByAmountDesc]
  | cons y ys ih =>
    rw [List.sorted_cons] at h
    simp only [insertByAmountDesc]
    by_cases hc : y.2 ≤ x.2
    · rw [if_pos hc, List.sorted_cons]
      refine ⟨?_, List.sorted_cons.mpr h⟩
      intro b hb
      rcases List.mem_cons.mp hb with hb | hb
      · rw [hb]; exact hc
      · exact le_trans (h.1 b hb) hc
    · rw [if_neg hc, List.sorted_cons]
      refine ⟨?_, ih h.2⟩
      intro b hb
      rcases List.mem_cons.mp ((insertByAmountDesc_perm x ys).mem_iff.mp hb) with hb | hb
      · rw [hb]; exact le_of_lt (lt_of_not_le hc)
      · exact h.1 b hb
  -- membership through the permutation splits into the head and tail cases

theorem sortByAmountDesc_sorted (l : List (String × ℚ)) :
    List.Sorted (fun p q : String × ℚ => q.2 ≤ p.2) (sortByAmountDesc l) := by
  induction l with
  | nil => simp [sortByAmountDesc]
  | cons a t ih =>
    simp only [sortByAmountDesc, List.foldr_cons]
    exact insertByAmountDesc_sorted ih

theorem sortByAmountDesc_ne_nil {l : List (String × ℚ)} (h : l ≠ []) :
    sortByAmountDesc l ≠ [] := by
  intro hc
  have := (sortByAmountDesc_perm l).length_eq
  rw [hc] at this
  exact h (List.length_eq_zero.mp this.symm)

theorem any_map_general {α β : Type} (f : α → β) (l : List α) (p : β → Bool) :
    (l.map f).any p = l.any (fun x => p (f x)) := by
  induction l with
  | nil => rfl
  | cons a t ih => simp [ih]

theorem extraAction_shapes (a : Analysis) (base : List ActionItem)
    (htot : 0 < a.total_expenses) :
    (extraHighCategoryAction a base).map actionShape
      = base.map actionShape ++ specExtraShapes a (base.map actionShape) := by
  have hfun : extraQualifies a base
      = (fun p : String × ℚ => 40 < p.2 / a.total_expenses * 100
          && !((base.map actionShape).any (fun sh => hasInfixChars p.1.data sh.1.data))) := by
    funext p
    unfold extraQualifies
    rw [if_pos htot, any_map_general]
    rfl
  unfold extraHighCategoryAction specExtraShapes
  rw [hfun]
  split
  · next p hp =>
    simp [actionShape, specCatSavings, if_pos htot]
  · next hp =>
    simp

theorem generateActionsBase_shapes (a : Analysis) (hbk : a.category_breakdown ≠ []) :
    (generateActionsBase a).map actionShape = specBaseShapes a := by
  obtain ⟨t1, rest, hs⟩ : ∃ t1 rest, sortByAmountDesc a.category_breakdown = t1 :: rest := by
    cases h : sortByAmountDesc a.category_breakdown with
    | nil => exact absurd h (sortByAmountDesc_ne_nil hbk)
    | cons x xs => exact ⟨x, xs, rfl⟩
  have hmr : (if a.monthly_projection ≠ 0 then a.monthly_projection * 0.1 else 0)
      = 0.1 * a.monthly_projection := by
    by_cases hp : a.monthly_projection = 0
    · simp [hp]
    · rw [if_pos hp]
      ring
  simp only [generateActionsBase, specBaseShapes, hs]
  cases hst : a.budget_status with
  | HEALTHY =>
    simp [actionShape, specHealthyShapes, specBaseline, BudgetStatus.value, hmr]
    ring
  | WARNING =>
    simp [actionShape, specWarningShapes, specBaseline, BudgetStatus.value, hs, hmr,
          specCatSavings]
  | OVER_BUDGET =>
    cases rest with
    | nil =>
      simp [actionShape, specOverBudgetShapes, BudgetStatus.value, hs, hmr, specBaseline]
      ring
    | cons s r2 =>
      simp [actionShape, specOverBudgetShapes, BudgetStatus.value, hs, hmr, specBaseline]
      ring
  | UNKNOWN =>
    cases rest with
    | nil =>
      simp [actionShape, specOverBudgetShapes, BudgetStatus.value, hs, hmr, specBaseline]
      ring
    | cons s r2 =>
      simp [actionShape, specOverBudgetShapes, BudgetStatus.value, hs, hmr, specBaseline]
      ring

theorem generateActions_shapes (a : Analysis) (hbk : a.category_breakdown ≠ [])
    (htot : 0 < a.total_expenses) :
    (generateActions a).map actionShape
      = specBaseShapes a ++ specExtraShapes a (specBaseShapes a) := by
  unfold generateActions
  rw [extraAction_shapes a _ htot, generateActionsBase_shapes a hbk]

/-- C7: on every Analysis reaching the strategist (nonempty breakdown,
positive total) with one of the three statuses the claim describes, the
deterministic algorithm ranks the categories by spend descending (the
ranking is a descending-sorted permutation of the breakdown), takes the top
two, produces exactly the status-dependent items with the claimed priorities
and savings formulas, and afterwards appends at most one extra MEDIUM item
for the first category exceeding 40 percent of total that no existing
action description references. Items are compared on description, priority
and potential savings; impact strings are display glosses. -/
theorem C7_status_action_items :
    (∀ l : List (String × ℚ),
        (sortByAmountDesc l).Perm l
        ∧ List.Sorted (fun p q : String × ℚ => q.2 ≤ p.2) (sortByAmountDesc l))
    ∧ (∀ a : Analysis, a.category_breakdown ≠ [] → 0 < a.total_expenses →
        a.budget_status ≠ .UNKNOWN →
        (generateActions a).map actionShape = claimedActionShapes a) := by
  refine ⟨fun l => ⟨sortByAmountDesc_perm l, sortByAmountDesc_sorted l⟩, ?_⟩
  intro a hbk htot hst
  rw [generateActions_shapes a hbk htot]
  unfold claimedActionShapes specBaseShapes
  cases h : a.budget_status with
  | HEALTHY => rfl
  | WARNING => rfl
  | OVER_BUDGET => rfl
  | UNKNOWN => exact absurd h hst

/-- Witness for C7 on a concrete WARNING analysis. -/
theorem C7_witness :
    (generateActions
        { total_expenses := 8470, daily_rate := 1210, monthly_projection := 36300,
          days_analyzed := 7,
          category_breakdown := [("FOOD", 470), ("SHOPPING", 8000)],
          budget_status := .WARNING }).map actionShape
      = claimedActionShapes
          { total_expenses := 8470, daily_rate := 1210, monthly_projection := 36300,
            days_analyzed := 7,
            category_breakdown := [("FOOD", 470), ("SHOPPING", 8000)],
            budget_status := .WARNING } :=
  C7_status_action_items.2 _ (by simp) (by norm_num) (by simp)

/-- C10: an Analysis whose budget status is UNKNOWN is dispatched to the
else branch of the strategist, producing exactly the OVER_BUDGET item set
(the HIGH cut-30 and cut-20 items for the top categories and the URGENT
generic item) plus the extra rule; and the analyst produces the UNKNOWN
status exactly when the income argument is absent or the falsy zero. -/
theorem C10_unknown_status_overbudget_branch :
    (∀ a : Analysis, a.budget_status = .UNKNOWN → a.category_breakdown ≠ [] →
        0 < a.total_expenses →
        (generateActions a).map actionShape
          = specOverBudgetShapes a ++ specExtraShapes a (specOverBudgetShapes a))
    ∧ (∀ (eCE sOk : Bool) (expenses : List Expense) (days : ℕ) (income : Option ℚ),
        expenses ≠ [] → 1 ≤ days → (expenses.map Expense.amount).sum ≠ 0 →
        (income = none ∨ income = some 0) →
        ∃ a, analystExecute eCE sOk expenses days income = .ok a
          ∧ a.budget_status = .UNKNOWN) := by
  constructor
  · intro a hun hbk htot
    rw [generateActions_shapes a hbk htot]
    simp [specBaseShapes, hun]
  · intro eCE sOk expenses days income hne hdays htot hinc
    have hdays0 : days ≠ 0 := by omega
    simp only [analystExecute, if_neg hne, if_neg hdays0, trendsCalc]
    obtain ⟨ts, hts⟩ := trendsLoop_ok htot
      (if eCE then calculateBreakdownWithCode sOk expenses ((expenses.map Expense.amount).sum)
       else fallbackCategoryTotals expenses) []
    rw [hts]
    refine ⟨_, rfl, ?_⟩
    rcases hinc with h | h <;> subst h <;> simp [analystBudgetFields]

/-- Witness for C10 on a concrete UNKNOWN analysis and a concrete
income-free analyst run. -/
theorem C10_witness :
    (generateActions
        { total_expenses := 8470, daily_rate := 1210, monthly_projection := 36300,
          days_analyzed := 7,
          category_breakdown := [("FOOD", 470), ("SHOPPING", 8000)],
          budget_status := .UNKNOWN }).map actionShape
      = specOverBudgetShapes
          { total_expenses := 8470, daily_rate := 1210, monthly_projection := 36300,
            days_analyzed := 7,
            category_breakdown := [("FOOD", 470), ("SHOPPING", 8000)],
            budget_status := .UNKNOWN }
        ++ specExtraShapes
            { total_expenses := 8470, daily_rate := 1210, monthly_projection := 36300,
              days_analyzed := 7,
              category_breakdown := [("FOOD", 470), ("SHOPPING", 8000)],
              budget_status := .UNKNOWN }
            (specOverBudgetShapes
              { total_expenses := 8470, daily_rate := 1210, monthly_projection := 36300,
                days_analyzed := 7,
                category_breakdown := [("FOOD", 470), ("SHOPPING", 8000)],
                budget_status := .UNKNOWN }) :=
  C10_unknown_status_overbudget_branch.1 _ rfl (by simp) (by norm_num)

theorem digit_toNat_bounds {c : Char} (h : c.isDigit = true) :
    48 ≤ c.toNat ∧ c.toNat ≤ 57 := by
  unfold Char.isDigit at h
  simp only [Bool.and_eq_true, decide_eq_true_eq] at h
  exact h

theorem digit_not_ws {c : Char} (h : c.isDigit = true) : pyIsSpace c = false := by
  obtain ⟨h1, h2⟩ := digit_toNat_bounds h
  unfold pyIsSpace
  rw [if_neg (by omega)]

theorem trim_ne_drop_ne {l : List Char} (h : trimChars l ≠ []) :
    l.dropWhile pyIsSpace ≠ [] := by
  intro hc
  apply h
  unfold trimChars
  rw [hc]
  rfl

theorem descFromRev_correct (descCs : List Char) (hd : trimChars descCs ≠ [])
    (hn : ('\n') ∉ trimChars descCs) :
    descFromRev (' ' :: (descCs.dropWhile pyIsSpace).reverse)
      = some (String.mk (trimChars descCs)) := by
  have hws : pyIsSpace ' ' = true := by decide
  simp only [descFromRev, hws, if_true]
  have h1 : (' ' :: (descCs.dropWhile pyIsSpace).reverse).dropWhile pyIsSpace
      = (descCs.dropWhile pyIsSpace).reverse.dropWhile pyIsSpace := by
    rw [List.dropWhile_cons, if_pos hws]
  rw [h1]
  have h2 : ((descCs.dropWhile pyIsSpace).reverse.dropWhile pyIsSpace).reverse
      = trimChars descCs := rfl
  rw [h2]
  have hcond : ¬(trimChars descCs = []
      ∨ (trimChars descCs).any (fun x => x == '\n') = true) := by
    rintro (hc | hc)
    · exact hd hc
    · obtain ⟨x, hx, hxeq⟩ := List.any_eq_true.mp hc
      rw [beq_iff_eq] at hxeq
      exact hn (hxeq ▸ hx)
  rw [if_neg hcond]
  have h3 : pyStrip (String.mk (trimChars descCs)) = String.mk (trimChars descCs) := by
    unfold pyStrip
    rw [show (String.mk (trimChars descCs)).data = trimChars descCs from rfl, trimChars_idem]
  rw [h3]

theorem trimChars_append_of (xs ys : List Char)
    (hxs : xs.dropWhile pyIsSpace ≠ [])
    (hysne : ys ≠ [])
    (hys : ∀ c, ys.reverse.head? = some c → pyIsSpace c = false) :
    trimChars (xs ++ ys) = xs.dropWhile pyIsSpace ++ ys := by
  unfold trimChars
  rw [dropWhile_append_left ys hxs, List.reverse_append]
  cases hyr : ys.reverse with
  | nil =>
    exact absurd (by simpa using congrArg List.reverse hyr) hysne
  | cons c cs =>
    have hc : pyIsSpace c = false := hys c (by rw [hyr]; rfl)
    rw [show List.dropWhile pyIsSpace
          (c :: cs ++ (xs.dropWhile pyIsSpace).reverse)
        = c :: cs ++ (xs.dropWhile pyIsSpace).reverse from by
      rw [List.cons_append, dropWhile_cons_false hc]]
    rw [show (c :: cs : List Char) = ys.reverse from hyr.symm]
    rw [List.reverse_append, List.reverse_reverse, List.reverse_reverse]

theorem rev_nonempty_digits {ds : List Char} (h1 : ds ≠ []) (h2 : ∀ c ∈ ds, c.isDigit) :
    ∃ c cr, ds.reverse = c :: cr ∧ c.isDigit = true := by
  cases h : ds.reverse with
  | nil =>
    exact absurd (by simpa using congrArg List.reverse h) h1
  | cons c cr =>
    refine ⟨c, cr, rfl, ?_⟩
    apply h2
    rw [← List.mem_reverse, h]
    exact List.mem_cons_self c cr

theorem numberAndDesc_noFrac (descCs : List Char) (hd : trimChars descCs ≠ [])
    (hn : ('\n') ∉ trimChars descCs)
    (intDs : List Char) (hi1 : intDs ≠ []) (hi2 : ∀ c ∈ intDs, c.isDigit) :
    numberAndDesc (' ' :: intDs.reverse ++ ' ' :: (descCs.dropWhile pyIsSpace).reverse)
      = some (String.mk (trimChars descCs), amountOfDigits intDs none) := by
  obtain ⟨c1, cr, hrev, hc1⟩ := rev_nonempty_digits hi1 hi2
  have hall : ∀ c ∈ intDs.reverse, c.isDigit := fun c hc => hi2 c (List.mem_reverse.mp hc)
  simp only [numberAndDesc, List.cons_append]
  have hr3 : List.dropWhile pyIsSpace
      (' ' :: (intDs.reverse ++ ' ' :: (descCs.dropWhile pyIsSpace).reverse))
      = intDs.reverse ++ ' ' :: (descCs.dropWhile pyIsSpace).reverse := by
    rw [List.dropWhile_cons, if_pos (by decide), hrev, List.cons_append,
        dropWhile_cons_false (digit_not_ws hc1), ← List.cons_append, ← hrev]
  rw [hr3]
  have hd1 : List.takeWhile Char.isDigit
      (intDs.reverse ++ ' ' :: (descCs.dropWhile pyIsSpace).reverse)
      = intDs.reverse := by
    rw [takeWhile_append_all _ hall, takeWhile_cons_false (by decide), List.append_nil]
  have hr4 : List.dropWhile Char.isDigit
      (intDs.reverse ++ ' ' :: (descCs.dropWhile pyIsSpace).reverse)
      = ' ' :: (descCs.dropWhile pyIsSpace).reverse := by
    rw [dropWhile_append_all _ hall, dropWhile_cons_false (by decide)]
  rw [hd1, hr4, if_neg (by rw [hrev]; exact List.cons_ne_nil c1 cr)]
  simp only [scanAmountRest, show isSepChar ' ' = false from by decide,
    Bool.false_eq_true, if_false, descFromRev_correct descCs hd hn, List.reverse_reverse]
  rfl

theorem numberAndDesc_frac (descCs : List Char) (hd : trimChars descCs ≠ [])
    (hn : ('\n') ∉ trimChars descCs)
    (intDs : List Char) (hi1 : intDs ≠ []) (hi2 : ∀ c ∈ intDs, c.isDigit)
    (sep : Char) (fds : List Char) (hsep : sep = '.' ∨ sep = ',')
    (hf1 : fds ≠ []) (hf2 : ∀ c ∈ fds, c.isDigit) :
    numberAndDesc
        (' ' :: (fds.reverse ++ sep ::
          (intDs.reverse ++ ' ' :: (descCs.dropWhile pyIsSpace).reverse)))
      = some (String.mk (trimChars descCs), amountOfDigits intDs (some fds)) := by
  obtain ⟨cf, cfr, hfrev, hcf⟩ := rev_nonempty_digits hf1 hf2
  obtain ⟨c1, cr, hrev, hc1⟩ := rev_nonempty_digits hi1 hi2
  have hallf : ∀ c ∈ fds.reverse, c.isDigit := fun c hc => hf2 c (List.mem_reverse.mp hc)
  have halli : ∀ c ∈ intDs.reverse, c.isDigit := fun c hc => hi2 c (List.mem_reverse.mp hc)
  have hsepd : sep.isDigit = false := by rcases hsep with h | h <;> subst h <;> decide
  have hsepc : isSepChar sep = true := by rcases hsep with h | h <;> subst h <;> decide
  simp only [numberAndDesc]
  have hr3 : List.dropWhile pyIsSpace
      (' ' :: (fds.reverse ++ sep ::
        (intDs.reverse ++ ' ' :: (descCs.dropWhile pyIsSpace).reverse)))
      = fds.reverse ++ sep ::
          (intDs.reverse ++ ' ' :: (descCs.dropWhile pyIsSpace).reverse) := by
    rw [List.dropWhile_cons, if_pos (by decide), hfrev, List.cons_append,
        dropWhile_cons_false (digit_not_ws hcf), ← List.cons_append, ← hfrev]
  rw [hr3]
  have hd1 : List.takeWhile Char.isDigit
      (fds.reverse ++ sep ::
        (intDs.reverse ++ ' ' :: (descCs.dropWhile pyIsSpace).reverse))
      = fds.reverse := by
    rw [takeWhile_append_all _ hallf, takeWhile_cons_false hsepd, List.append_nil]
  have hr4 : List.dropWhile Char.isDigit
      (fds.reverse ++ sep ::
        (intDs.reverse ++ ' ' :: (descCs.dropWhile pyIsSpace).reverse))
      = sep :: (intDs.reverse ++ ' ' :: (descCs.dropWhile pyIsSpace).reverse) := by
    rw [dropWhile_append_all _ hallf, dropWhile_cons_false hsepd]
  rw [hd1, hr4, if_neg (by rw [hfrev]; exact List.cons_ne_nil cf cfr)]
  simp only [scanAmountRest, hsepc, if_true]
  have hd2 : List.takeWhile Char.isDigit
      (intDs.reverse ++ ' ' :: (descCs.dropWhile pyIsSpace).reverse)
      = intDs.reverse := by
    rw [takeWhile_append_all _ halli, takeWhile_cons_false (by decide), List.append_nil]
  have hr6 : List.dropWhile Char.isDigit
      (intDs.reverse ++ ' ' :: (descCs.dropWhile pyIsSpace).reverse)
      = ' ' :: (descCs.dropWhile pyIsSpace).reverse := by
    rw [dropWhile_append_all _ halli, dropWhile_cons_false (by decide)]
  rw [hd2, hr6, if_neg (by rw [hrev]; exact List.cons_ne_nil c1 cr),
      descFromRev_correct descCs hd hn]
  simp only [List.reverse_reverse]
  rfl

theorem regexParse_core (descCs numCs tagCs : List Char)
    (hdesc : trimChars descCs ≠ [])
    (hrt : ∀ X : List Char, stripTagRev (tagCs.reverse ++ X) = some X)
    (hrtc : ∃ c0 t0, tagCs.reverse = c0 :: t0 ∧ pyIsSpace c0 = false) :
    regexParse (String.mk (descCs ++ ' ' :: (numCs ++ ' ' :: tagCs)))
      = numberAndDesc
          (' ' :: (numCs.reverse ++ ' ' :: (descCs.dropWhile pyIsSpace).reverse)) := by
  obtain ⟨c0, t0, hrt0, hc0⟩ := hrtc
  simp only [regexParse]
  have htr : trimChars (descCs ++ ' ' :: (numCs ++ ' ' :: tagCs))
      = descCs.dropWhile pyIsSpace ++ ' ' :: (numCs ++ ' ' :: tagCs) := by
    apply trimChars_append_of
    · exact trim_ne_drop_ne hdesc
    · exact List.cons_ne_nil _ _
    · intro c hc
      rw [show (' ' :: (numCs ++ ' ' :: tagCs)).reverse
          = tagCs.reverse ++ ([' '] ++ (numCs.reverse ++ [' '])) from by simp] at hc
      rw [hrt0, List.cons_append, List.head?_cons] at hc
      rw [← Option.some.inj hc]
      exact hc0
  rw [htr]
  rw [show (descCs.dropWhile pyIsSpace ++ ' ' :: (numCs ++ ' ' :: tagCs)).reverse
      = tagCs.reverse ++ (' ' :: (numCs.reverse
          ++ ' ' :: (descCs.dropWhile pyIsSpace).reverse)) from by simp]
  rw [hrt]
  rfl

theorem regexParse_wellformed (descCs intDs : List Char) (fr : Option (Char × List Char))
    (tag : String)
    (hdesc : trimChars descCs ≠ [])
    (hnl : ('\n') ∉ trimChars descCs)
    (hi1 : intDs ≠ []) (hi2 : ∀ c ∈ intDs, c.isDigit)
    (hfr : ∀ p ∈ fr, (p.1 = '.' ∨ p.1 = ',') ∧ p.2 ≠ [] ∧ ∀ c ∈ p.2, c.isDigit)
    (htag : tag ∈ (["TL", "tl", "Tl", "tL", "₺"] : List String)) :
    regexParse (String.mk (descCs ++ ' ' :: ((intDs ++ sepChars fr) ++ ' ' :: tag.data)))
      = some (String.mk (trimChars descCs), amountOfDigits intDs (fr.map Prod.snd)) := by
  have hmain : ∀ tagCs : List Char,
      (∀ X : List Char, stripTagRev (tagCs.reverse ++ X) = some X) →
      (∃ c0 t0, tagCs.reverse = c0 :: t0 ∧ pyIsSpace c0 = false) →
      regexParse (String.mk (descCs ++ ' ' :: ((intDs ++ sepChars fr) ++ ' ' :: tagCs)))
        = some (String.mk (trimChars descCs), amountOfDigits intDs (fr.map Prod.snd)) := by
    intro tagCs hrt hrtc
    rw [regexParse_core descCs _ tagCs hdesc hrt hrtc]
    cases fr with
    | none =>
      rw [show ((intDs ++ sepChars none) : List Char) = intDs from by simp [sepChars]]
      exact numberAndDesc_noFrac descCs hdesc hnl intDs hi1 hi2
    | some p =>
      obtain ⟨sep, fds⟩ := p
      obtain ⟨hsep, hf1, hf2⟩ := hfr (sep, fds) rfl
      rw [show ((intDs ++ sepChars (some (sep, fds))) : List Char)
          = intDs ++ sep :: fds from rfl]
      rw [show (intDs ++ sep :: fds).reverse
            ++ ' ' :: (descCs.dropWhile pyIsSpace).reverse
          = fds.reverse ++ sep ::
              (intDs.reverse ++ ' ' :: (descCs.dropWhile pyIsSpace).reverse)
          from by simp]
      exact numberAndDesc_frac descCs hdesc hnl intDs hi1 hi2 sep fds hsep hf1 hf2
  simp only [List.mem_cons, List.not_mem_nil, or_false] at htag
  rcases htag with h | h | h | h | h <;> subst h
  · exact hmain "TL".data (fun X => rfl) ⟨'L', ['T'], rfl, by decide⟩
  · exact hmain "tl".data (fun X => rfl) ⟨'l', ['t'], rfl, by decide⟩
  · exact hmain "Tl".data (fun X => rfl) ⟨'l', ['T'], rfl, by decide⟩
  · exact hmain "tL".data (fun X => rfl) ⟨'L', ['t'], rfl, by decide⟩
  · exact hmain "₺".data (fun X => by cases X <;> rfl) ⟨'₺', [], rfl, by decide⟩

/-- C4 (amended): for every input of the well-formed shape
desc-space-number-space-tag (number = digit run with one optional decimal
separator written as a dot or a comma, tag = TL or tl or Tl or tL or the
lira sign) whose trimmed leading text contains no newline, _parse takes the
regex path and returns exactly the trimmed leading text as the description
and the decimal value of the number (comma read as decimal point) as the
amount, independent of the backend response and of the float builtin; in
particular kahve 50 TL parses to (kahve, 50) and market 300,50 TL parses to
(market, 300.5). The newline restriction is necessary: the dot of the
pattern does not match a newline (see the counterexample). -/
theorem C4_regex_parse_wellformed :
    (∀ (floatStr : String → Option ℚ) (descCs intDs : List Char)
       (fr : Option (Char × List Char)) (tag : String) (resp : Option JsonVal),
      trimChars descCs ≠ [] → ('\n') ∉ trimChars descCs →
      intDs ≠ [] → (∀ c ∈ intDs, c.isDigit) →
      (∀ p ∈ fr, (p.1 = '.' ∨ p.1 = ',') ∧ p.2 ≠ [] ∧ ∀ c ∈ p.2, c.isDigit) →
      tag ∈ (["TL", "tl", "Tl", "tL", "₺"] : List String) →
      classifierParse floatStr
          (String.mk (descCs ++ ' ' :: ((intDs ++ sepChars fr) ++ ' ' :: tag.data))) resp
        = .ok (.jstr (String.mk (trimChars descCs)), amountOfDigits intDs (fr.map Prod.snd)))
    ∧ (∀ floatStr resp,
        classifierParse floatStr "kahve 50 TL" resp = .ok (.jstr "kahve", 50))
    ∧ (∀ floatStr resp,
        classifierParse floatStr "market 300,50 TL" resp = .ok (.jstr "market", 300.5)) := by
  refine ⟨?_, ?_, ?_⟩
  · intro floatStr descCs intDs fr tag resp hdesc hnl hi1 hi2 hfr htag
    simp only [classifierParse,
      regexParse_wellformed descCs intDs fr tag hdesc hnl hi1 hi2 hfr htag]
  · intro floatStr resp
    have h := regexParse_wellformed "kahve".data ['5', '0'] none "TL"
      (by decide) (by decide) (by decide) (by decide) (fun p hp => by simp at hp) (by decide)
    rw [show String.mk ("kahve".data ++ ' ' :: ((['5', '0'] ++ sepChars none) ++ ' ' :: "TL".data))
        = "kahve 50 TL" from by decide] at h
    have hdesc : String.mk (trimChars "kahve".data) = "kahve" := by decide
    have hnat : digitsToNat ['5', '0'] = 50 := by decide
    have hamt : amountOfDigits ['5', '0'] none = 50 := by
      simp only [amountOfDigits, hnat]
      norm_num
    simp only [classifierParse, h, hdesc, Option.map_none', hamt]
  · intro floatStr resp
    have h := regexParse_wellformed "market".data ['3', '0', '0'] (some (',', ['5', '0'])) "TL"
      (by decide) (by decide) (by decide) (by decide)
      (fun p hp => by
        rw [Option.mem_def] at hp
        injection hp with hp
        subst hp
        exact ⟨Or.inr rfl, by decide, by decide⟩)
      (by decide)
    rw [show String.mk ("market".data
          ++ ' ' :: ((['3', '0', '0'] ++ sepChars (some (',', ['5', '0']))) ++ ' ' :: "TL".data))
        = "market 300,50 TL" from by decide] at h
    have hdesc : String.mk (trimChars "market".data) = "market" := by decide
    have hnat1 : digitsToNat ['3', '0', '0'] = 300 := by decide
    have hnat2 : digitsToNat ['5', '0'] = 50 := by decide
    have hamt : amountOfDigits ['3', '0', '0'] (some ['5', '0']) = 300.5 := by
      simp only [amountOfDigits, hnat1, hnat2]
      norm_num
    simp only [classifierParse, h, hdesc, Option.map_some', hamt]

/-- Witness for C4 at the first spec example. -/
theorem C4_witness :
    classifierParse (fun _ => none)
        (String.mk ("kahve".data ++ ' ' :: ((['5', '0'] ++ sepChars none) ++ ' ' :: "TL".data)))
        none
      = .ok (.jstr (String.mk (trimChars "kahve".data)), amountOfDigits ['5', '0'] none) :=
  C4_regex_parse_wellformed.1 (fun _ => none) "kahve".data ['5', '0'] none "TL" none
    (by decide) (by decide) (by decide) (by decide) (fun p hp => by simp at hp) (by decide)

/-- C4 counterexample: the input a-newline-b space 50 space TL has the
claimed well-formed shape with leading text a-newline-b, but the dot of the
pattern cannot cross the newline, so re.match fails and _parse falls
through to the backend; with an invalid-JSON response it returns the whole
text with the 0.0 sentinel, not the claimed description-amount pair. -/
theorem C4_counterexample :
    classifierParse (fun _ => none) "a\nb 50 TL" none = .ok (.jstr "a\nb 50 TL", 0)
      ∧ classifierParse (fun _ => none) "a\nb 50 TL" none ≠ .ok (.jstr "a\nb", 50) := by
  refine ⟨rfl, fun hcontra => ?_⟩
  have h2 : Except.ok (ε := PyError) (JsonVal.jstr "a\nb 50 TL", (0 : ℚ))
      = .ok (.jstr "a\nb", 50) := by
    rw [← hcontra]
    rfl
  simp only [Except.ok.injEq, Prod.mk.injEq, JsonVal.jstr.injEq] at h2
  exact absurd h2.1 (by decide)

/-- C5: the degradation contract of the LLM fallback of _parse holds for
malformed JSON, missing keys, and string amounts the float builtin rejects
(all degrade to the original text with the 0.0 sentinel; the builtin is the
floatStr oracle, none modelling its ValueError), but it is violated when
the backend response is valid JSON that is not an object: subscripting the
parsed value raises TypeError, which the except clause (JSONDecodeError,
KeyError, ValueError) does not catch, so _parse raises instead of returning
the sentinel. The no-match texts are bounded to ASCII, where the embedded
scan coincides with the source regex. The last conjunct evaluates the
embedding at such a failing input. -/
theorem C5_parse_sentinel_and_typeerror :
    (∀ (floatStr : String → Option ℚ) (text : String),
      isAsciiStr text = true → regexParse text = none →
      classifierParse floatStr text none = .ok (.jstr text, 0))
    ∧ (∀ (floatStr : String → Option ℚ) (text : String) (fields : List (String × JsonVal)),
        isAsciiStr text = true → regexParse text = none →
        (jsonLookup fields "description" = none ∨ jsonLookup fields "amount" = none) →
        classifierParse floatStr text (some (.jobj fields)) = .ok (.jstr text, 0))
    ∧ (∀ (floatStr : String → Option ℚ) (text : String) (fields : List (String × JsonVal))
         (d : JsonVal) (s : String),
        isAsciiStr text = true → regexParse text = none →
        jsonLookup fields "description" = some d →
        jsonLookup fields "amount" = some (.jstr s) →
        floatStr s = none →
        classifierParse floatStr text (some (.jobj fields)) = .ok (.jstr text, 0))
    ∧ (∀ floatStr : String → Option ℚ,
        classifierParse floatStr "complete mystery item" (some (.jarr []))
          = .error .typeError) := by
  refine ⟨?_, ?_, ?_, fun floatStr => rfl⟩
  · intro floatStr text _ hre
    simp only [classifierParse, hre, llmParseTryBlock, caughtByParse, if_true]
  · intro floatStr text fields _ hre hmiss
    simp only [classifierParse, hre, llmParseTryBlock]
    rcases hmiss with hm | hm
    · simp only [hm, caughtByParse, if_true]
    · cases hd : jsonLookup fields "description" with
      | none => simp only [caughtByParse, if_true]
      | some d => simp only [hm, caughtByParse, if_true]
  · intro floatStr text fields d s _ hre hd ha hs
    simp only [classifierParse, hre, llmParseTryBlock, hd, ha, pyFloat, hs, caughtByParse,
      if_true]

/-- Witness for C5 on a concrete amount-free text with a malformed backend
response. -/
theorem C5_witness :
    classifierParse (fun _ => none) "complete mystery item" none
      = .ok (.jstr "complete mystery item", 0) :=
  C5_parse_sentinel_and_typeerror.1 (fun _ => none) "complete mystery item" (by decide) rfl
